import Mathlib

/-!
Verification development for the DVH-Extractor repository.

The embedding models the core of src/DVH-Extractor.py (and, where it differs,
src/dvh2_csv_improved.py): the line classifier, the DVH report parser
(parse_dvh_file), the batch loader (parse_folder), and the two pivot writers
(write_patient_csvs, write_structure_csvs).

Modelling conventions:
- Python dicts are association lists (List (K × V)) with insertion-order
  preservation and in-place overwrite (dictInsert / dictUpd / dictGet below).
- Python floats are modelled as exact rationals (ℚ).  Arithmetic used in
  executable positions is written at the numerator/denominator level (mkRat,
  Int.fdiv) so that concrete runs reduce in the kernel; bridge lemmas relate
  these operations to the standard ℚ operations used in theorem statements.
- A CSV cell is either a string cell or a numeric cell (Cell below); the csv
  module serialization itself is not modelled.
- Whitespace is space, tab, CR, LF (the characters occurring in the reports).
-/

/-- Python-dict lookup on an association list: value of the first entry with
the given key. -/
def dictGet {K V : Type} [DecidableEq K] (k : K) : List (K × V) → Option V
  | [] => none
  | (k', v) :: t => if k' = k then some v else dictGet k t

/-- Python-dict assignment of value `v` at key `k`: overwrite the first entry
with key `k` in place, or append a new entry at the end (insertion order
preserved). -/
def dictInsert {K V : Type} [DecidableEq K] (k : K) (v : V) : List (K × V) → List (K × V)
  | [] => [(k, v)]
  | (k', v') :: t => if k' = k then (k, v) :: t else (k', v') :: dictInsert k v t

/-- Python-dict update of the entry at key `k` by `f`; if the key is absent the
entry `f dflt` is appended (this is defaultdict behaviour; for plain dicts the
absent case is unreachable at every use site below). -/
def dictUpd {K V : Type} [DecidableEq K] (k : K) (dflt : V) (f : V → V) : List (K × V) → List (K × V)
  | [] => [(k, f dflt)]
  | (k', v') :: t => if k' = k then (k', f v') :: t else (k', v') :: dictUpd k dflt f t

/-- Keys of an association list, in order. -/
def dictKeys {K V : Type} : List (K × V) → List K := List.map Prod.fst

theorem dictKeys_nil {K V : Type} : dictKeys ([] : List (K × V)) = [] := rfl

theorem dictKeys_cons {K V : Type} (e : K × V) (t : List (K × V)) :
    dictKeys (e :: t) = e.1 :: dictKeys t := rfl

theorem dictGet_insert_self {K V : Type} [DecidableEq K] (k : K) (v : V) (m : List (K × V)) :
    dictGet k (dictInsert k v m) = some v := by
  induction m with
  | nil => simp [dictGet, dictInsert]
  | cons e t ih =>
    obtain ⟨k', v'⟩ := e
    by_cases h : k' = k <;> simp [dictGet, dictInsert, h, ih]

theorem dictGet_insert_ne {K V : Type} [DecidableEq K] {k k' : K} (v : V) (m : List (K × V))
    (h : k' ≠ k) : dictGet k' (dictInsert k v m) = dictGet k' m := by
  have hk : ¬ (k = k') := fun h' => h h'.symm
  induction m with
  | nil => simp [dictGet, dictInsert, hk]
  | cons e t ih =>
    obtain ⟨k0, v0⟩ := e
    by_cases h0 : k0 = k
    · subst h0
      simp [dictGet, dictInsert, hk]
    · by_cases h1 : k0 = k' <;> simp [dictGet, dictInsert, h0, h1, h, ih]

theorem dictGet_upd_self {K V : Type} [DecidableEq K] (k : K) (dflt : V) (f : V → V)
    (m : List (K × V)) :
    dictGet k (dictUpd k dflt f m) = some (f ((dictGet k m).getD dflt)) := by
  induction m with
  | nil => simp [dictGet, dictUpd]
  | cons e t ih =>
    obtain ⟨k', v'⟩ := e
    by_cases h : k' = k <;> simp [dictGet, dictUpd, h, ih]

theorem dictGet_upd_ne {K V : Type} [DecidableEq K] {k k' : K} (dflt : V) (f : V → V)
    (m : List (K × V)) (h : k' ≠ k) :
    dictGet k' (dictUpd k dflt f m) = dictGet k' m := by
  have hk : ¬ (k = k') := fun h' => h h'.symm
  induction m with
  | nil => simp [dictGet, dictUpd, hk]
  | cons e t ih =>
    obtain ⟨k0, v0⟩ := e
    by_cases h0 : k0 = k
    · subst h0
      simp [dictGet, dictUpd, hk]
    · by_cases h1 : k0 = k' <;> simp [dictGet, dictUpd, h0, h1, h, ih]

theorem dictKeys_insert {K V : Type} [DecidableEq K] (k : K) (v : V) (m : List (K × V)) :
    dictKeys (dictInsert k v m) = if k ∈ dictKeys m then dictKeys m else dictKeys m ++ [k] := by
  induction m with
  | nil => simp [dictKeys, dictInsert]
  | cons e t ih =>
    obtain ⟨k', v'⟩ := e
    by_cases h : k' = k
    · subst h
      simp [dictKeys, dictInsert]
    · have hne : ¬ (k = k') := fun h' => h h'.symm
      by_cases hm : k ∈ dictKeys t
      · simp only [dictInsert, if_neg h, dictKeys_cons, ih, if_pos hm]
        simp only [List.mem_cons, hne, false_or]
        rw [if_pos hm]
      · simp only [dictInsert, if_neg h, dictKeys_cons, ih, if_neg hm]
        simp only [List.mem_cons, hne, false_or]
        rw [if_neg hm, List.cons_append]

theorem dictKeys_upd {K V : Type} [DecidableEq K] (k : K) (dflt : V) (f : V → V)
    (m : List (K × V)) :
    dictKeys (dictUpd k dflt f m) = if k ∈ dictKeys m then dictKeys m else dictKeys m ++ [k] := by
  induction m with
  | nil => simp [dictKeys, dictUpd]
  | cons e t ih =>
    obtain ⟨k', v'⟩ := e
    by_cases h : k' = k
    · subst h
      simp [dictKeys, dictUpd]
    · have hne : ¬ (k = k') := fun h' => h h'.symm
      by_cases hm : k ∈ dictKeys t
      · simp only [dictUpd, if_neg h, dictKeys_cons, ih, if_pos hm]
        simp only [List.mem_cons, hne, false_or]
        rw [if_pos hm]
      · simp only [dictUpd, if_neg h, dictKeys_cons, ih, if_neg hm]
        simp only [List.mem_cons, hne, false_or]
        rw [if_neg hm, List.cons_append]

theorem nodup_dictKeys_insert {K V : Type} [DecidableEq K] (k : K) (v : V) (m : List (K × V))
    (h : (dictKeys m).Nodup) : (dictKeys (dictInsert k v m)).Nodup := by
  rw [dictKeys_insert]
  by_cases hm : k ∈ dictKeys m
  · simpa [hm]
  · simpa [hm] using List.Nodup.append h (List.nodup_singleton k) (by simpa using hm)

theorem nodup_dictKeys_upd {K V : Type} [DecidableEq K] (k : K) (dflt : V) (f : V → V)
    (m : List (K × V)) (h : (dictKeys m).Nodup) : (dictKeys (dictUpd k dflt f m)).Nodup := by
  rw [dictKeys_upd]
  by_cases hm : k ∈ dictKeys m
  · simpa [hm]
  · simpa [hm] using List.Nodup.append h (List.nodup_singleton k) (by simpa using hm)

theorem mem_dictKeys_iff_isSome {K V : Type} [DecidableEq K] (k : K) (m : List (K × V)) :
    k ∈ dictKeys m ↔ (dictGet k m).isSome := by
  induction m with
  | nil => simp [dictKeys, dictGet]
  | cons e t ih =>
    obtain ⟨k', v'⟩ := e
    by_cases h : k' = k
    · subst h
      simp [dictKeys, dictGet]
    · have hne : ¬ (k = k') := fun h' => h h'.symm
      simp only [dictKeys_cons, List.mem_cons, dictGet, if_neg h]
      constructor
      · rintro (h0 | h0)
        · exact absurd h0 hne
        · exact ih.mp h0
      · intro h0
        exact Or.inr (ih.mpr h0)

theorem dictGet_eq_some_mem {K V : Type} [DecidableEq K] {k : K} {v : V} {m : List (K × V)}
    (h : dictGet k m = some v) : (k, v) ∈ m := by
  induction m with
  | nil => simp [dictGet] at h
  | cons e t ih =>
    obtain ⟨k', v'⟩ := e
    by_cases h0 : k' = k
    · subst h0
      simp [dictGet] at h
      simp [h]
    · simp [dictGet, h0] at h
      exact List.mem_cons_of_mem _ (ih h)

/-- Whitespace as matched by the report lines (space, tab, CR, LF). -/
def isWs (c : Char) : Bool := c = ' ' || c = '\t' || c = '\r' || c = '\n'

/-- Length of the maximal whitespace run at the head of the character list. -/
def wsRun : List Char → Nat
  | [] => 0
  | c :: t => if isWs c then wsRun t + 1 else 0

/-- Python str.strip: remove leading and trailing whitespace. -/
def pstrip (cs : List Char) : List Char :=
  ((cs.dropWhile (fun c => isWs c)).reverse.dropWhile (fun c => isWs c)).reverse

/-- Accumulator loop for splitWs: `cur` is the current token reversed, `acc`
the finished tokens reversed. -/
def splitWsAux (cur : List Char) (acc : List (List Char)) : List Char → List (List Char)
  | [] => if cur = [] then acc.reverse else (cur.reverse :: acc).reverse
  | c :: t =>
    if isWs c then
      if cur = [] then splitWsAux [] acc t
      else splitWsAux [] (cur.reverse :: acc) t
    else splitWsAux (c :: cur) acc t

/-- Python re.split on runs of whitespace, as applied to an already stripped
line (line 301 of src/DVH-Extractor.py): the maximal non-whitespace tokens. -/
def splitWs (cs : List Char) : List (List Char) := splitWsAux [] [] cs

/-- Match of the regex alternative "optional whitespace, colon, optional
whitespace" at the head of `cs`: the backtracking greedy scan finds the colon
exactly at the end of the maximal whitespace run, or nowhere; the match then
greedily takes the whitespace after the colon.  Returns the length consumed. -/
def alt1Len (cs : List Char) : Option Nat :=
  match cs.drop (wsRun cs) with
  | ':' :: rest => some (wsRun cs + 1 + wsRun rest)
  | _ => none

/-- Match of the regex alternative "two or more whitespace characters" at the
head of `cs`: requires two leading whitespace characters and greedily consumes
the maximal whitespace run. -/
def alt2Len (cs : List Char) : Option Nat :=
  match cs with
  | c1 :: c2 :: _ => if isWs c1 && isWs c2 then some (wsRun cs) else none
  | _ => none

/-- Length of the separator match at the head of `cs`, if any; the colon
alternative is tried first, as written in the pattern of line 286. -/
def sepLen (cs : List Char) : Option Nat :=
  match alt1Len cs with
  | some n => some n
  | none => alt2Len cs

/-- Leftmost match of the separator regex: scan positions left to right and
split around the first match (re.split with maxsplit 1). -/
def splitFirst : List Char → Option (List Char × List Char)
  | [] => none
  | c :: t =>
    match sepLen (c :: t) with
    | some n => some ([], (c :: t).drop n)
    | none =>
      match splitFirst t with
      | some (l, r) => some (c :: l, r)
      | none => none

/-- The line classifier of src/DVH-Extractor.py lines 286-288: split the line
at the first separator match (maxsplit 1); key = parts[0].strip(); val =
parts[1].strip() if a split happened, else the empty string. -/
def splitKeyVal (line : List Char) : List Char × List Char :=
  match splitFirst line with
  | some (l, r) => (pstrip l, pstrip r)
  | none => (pstrip line, [])

/-- Codepoint-lexicographic comparison of character lists: the order Python
uses when sorting strings (structure names, patient identifiers). -/
def lexLe : List Char → List Char → Bool
  | [], _ => true
  | _ :: _, [] => false
  | a :: as, b :: bs =>
    if a.toNat < b.toNat then true
    else if b.toNat < a.toNat then false
    else lexLe as bs

/-- Codepoint-lexicographic comparison of strings (Python str comparison). -/
def strLe (s t : String) : Bool := lexLe s.data t.data

theorem lexLe_total : ∀ (a b : List Char), lexLe a b = true ∨ lexLe b a = true
  | [], _ => Or.inl rfl
  | _ :: _, [] => Or.inr rfl
  | a :: as, b :: bs => by
    rcases Nat.lt_trichotomy a.toNat b.toNat with h1 | h1 | h1
    · left
      simp [lexLe, h1]
    · rcases lexLe_total as bs with h | h
      · left
        simp [lexLe, h1, Nat.lt_irrefl, h]
      · right
        simp [lexLe, h1, Nat.lt_irrefl, h]
    · right
      simp [lexLe, h1]

theorem lexLe_trans : ∀ {a b c : List Char},
    lexLe a b = true → lexLe b c = true → lexLe a c = true
  | [], _, _, _, _ => rfl
  | _ :: _, [], _, hab, _ => by simp [lexLe] at hab
  | _ :: _, _ :: _, [], _, hbc => by simp [lexLe] at hbc
  | a :: as, b :: bs, c :: cs, hab, hbc => by
    rcases Nat.lt_trichotomy a.toNat b.toNat with h1 | h1 | h1 <;>
      rcases Nat.lt_trichotomy b.toNat c.toNat with h2 | h2 | h2
    · simp [lexLe, show a.toNat < c.toNat by omega]
    · simp [lexLe, show a.toNat < c.toNat by omega]
    · simp [lexLe, show ¬ b.toNat < c.toNat by omega, h2] at hbc
    · simp [lexLe, show a.toNat < c.toNat by omega]
    · have h3 : ¬ a.toNat < b.toNat := by omega
      have h4 : ¬ b.toNat < a.toNat := by omega
      have h5 : ¬ b.toNat < c.toNat := by omega
      have h6 : ¬ c.toNat < b.toNat := by omega
      simp only [lexLe, if_neg h3, if_neg h4] at hab
      simp only [lexLe, if_neg h5, if_neg h6] at hbc
      simp only [lexLe, if_neg (show ¬ a.toNat < c.toNat by omega),
        if_neg (show ¬ c.toNat < a.toNat by omega)]
      exact lexLe_trans hab hbc
    · simp [lexLe, show ¬ b.toNat < c.toNat by omega, h2] at hbc
    · simp [lexLe, show ¬ a.toNat < b.toNat by omega, h1] at hab
    · simp [lexLe, show ¬ a.toNat < b.toNat by omega, h1] at hab
    · simp [lexLe, show ¬ a.toNat < b.toNat by omega, h1] at hab

instance : IsTotal String (fun s t => strLe s t = true) :=
  ⟨fun a b => lexLe_total a.data b.data⟩

instance : IsTrans String (fun s t => strLe s t = true) :=
  ⟨fun _ _ _ hab hbc => lexLe_trans hab hbc⟩

/-- Boolean strict comparison on ℚ at the numerator/denominator level;
equivalent to the order on ℚ (qlt_iff), but kernel-reducible. -/
def qlt (x y : ℚ) : Bool := decide (x.num * (y.den : ℤ) < y.num * (x.den : ℤ))

/-- Boolean non-strict comparison on ℚ at the numerator/denominator level. -/
def qle (x y : ℚ) : Bool := decide (x.num * (y.den : ℤ) ≤ y.num * (x.den : ℤ))

theorem qlt_iff (x y : ℚ) : qlt x y = true ↔ x < y := by
  rw [qlt, decide_eq_true_eq, Rat.lt_def]

theorem qle_iff (x y : ℚ) : qle x y = true ↔ x ≤ y := by
  rw [qle, decide_eq_true_eq, Rat.le_def]

instance : IsTotal ℚ (fun a b => qle a b = true) :=
  ⟨fun a b => by
    rw [qle_iff, qle_iff]
    exact le_total a b⟩

instance : IsTrans ℚ (fun a b => qle a b = true) :=
  ⟨fun a b c hab hbc => by
    rw [qle_iff] at hab hbc ⊢
    exact le_trans hab hbc⟩

/-- Absolute value on ℚ at the numerator/denominator level (see qabs_eq). -/
def qabs (x : ℚ) : ℚ := if x.num < 0 then mkRat (-x.num) x.den else x

theorem qabs_eq (x : ℚ) : qabs x = |x| := by
  rw [qabs]
  by_cases h : x.num < 0
  · rw [if_pos h, Rat.mkRat_eq_div, abs_of_neg (Rat.num_neg.mp h)]
    push_cast
    rw [neg_div, Rat.num_div_den]
  · rw [if_neg h, abs_of_nonneg (Rat.num_nonneg.mp (le_of_not_lt h))]

/-- Subtraction on ℚ at the numerator/denominator level (see qsub_eq). -/
def qsub (x y : ℚ) : ℚ := mkRat (x.num * y.den - y.num * x.den) (x.den * y.den)

theorem qsub_eq (x y : ℚ) : qsub x y = x - y := by
  have hx : ((x.den : ℚ)) ≠ 0 := Nat.cast_ne_zero.mpr x.den_nz
  have hy : ((y.den : ℚ)) ≠ 0 := Nat.cast_ne_zero.mpr y.den_nz
  rw [qsub, Rat.mkRat_eq_div]
  conv_rhs => rw [← Rat.num_div_den x, ← Rat.num_div_den y]
  rw [div_sub_div _ _ hx hy]
  push_cast
  ring_nf

/-- Floor of x / y for positive y, computed at the numerator/denominator level
with Int.fdiv (floor division); see qfloorDiv_eq. -/
def qfloorDiv (x y : ℚ) : ℤ := (x.num * (y.den : ℤ)).fdiv (y.num * (x.den : ℤ))

theorem qfloorDiv_eq (x y : ℚ) (hy : 0 < y) : qfloorDiv x y = ⌊x / y⌋ := by
  have hx : ((x.den : ℚ)) ≠ 0 := Nat.cast_ne_zero.mpr x.den_nz
  have hyd : ((y.den : ℚ)) ≠ 0 := Nat.cast_ne_zero.mpr y.den_nz
  have hyn : 0 < y.num := Rat.num_pos.mpr hy
  have hb : 0 < y.num * (x.den : ℤ) := by
    have := x.den_pos
    positivity
  have hBq : (((y.num * (x.den : ℤ) : ℤ)) : ℚ) ≠ 0 := by
    exact_mod_cast ne_of_gt hb
  have hx' : x * ((x.den : ℕ) : ℚ) = ((x.num : ℤ) : ℚ) := by
    conv_lhs => lhs; rw [← Rat.num_div_den x]
    rw [div_mul_cancel₀ _ hx]
  have hy' : y * ((y.den : ℕ) : ℚ) = ((y.num : ℤ) : ℚ) := by
    conv_lhs => lhs; rw [← Rat.num_div_den y]
    rw [div_mul_cancel₀ _ hyd]
  have key : x / y = ((x.num * (y.den : ℤ) : ℤ) : ℚ) / ((y.num * (x.den : ℤ) : ℤ) : ℚ) := by
    rw [div_eq_div_iff (ne_of_gt hy) hBq]
    push_cast
    linear_combination ((y.num : ℤ) : ℚ) * hx' - ((x.num : ℤ) : ℚ) * hy'
  have htn : ((y.num * (x.den : ℤ) : ℤ) : ℚ) = (((y.num * (x.den : ℤ)).toNat : ℕ) : ℚ) := by
    exact_mod_cast (Int.toNat_of_nonneg (le_of_lt hb)).symm
  rw [key, htn, Rat.floor_intCast_div_natCast, Int.toNat_of_nonneg (le_of_lt hb), qfloorDiv,
    Int.fdiv_eq_ediv _ (le_of_lt hb)]

/-- Python float modulo for the positive moduli used here:
x % y = x - y * floor(x / y). -/
def pmod (x y : ℚ) : ℚ := x - y * ⌊x / y⌋

/-- Executable counterpart of pmod (see qpmod_eq). -/
def qpmod (x y : ℚ) : ℚ := qsub x (mkRat (y.num * qfloorDiv x y) y.den)

theorem qpmod_eq (x y : ℚ) (hy : 0 < y) : qpmod x y = pmod x y := by
  have hyd : ((y.den : ℚ)) ≠ 0 := Nat.cast_ne_zero.mpr y.den_nz
  rw [qpmod, qsub_eq, pmod, qfloorDiv_eq x y hy, Rat.mkRat_eq_div]
  push_cast
  rw [mul_comm, mul_div_assoc, Rat.num_div_den]
  ring

/-- The tolerance 1e-9 of the sampling filter. -/
def epsQ : ℚ := mkRat 1 1000000000

theorem epsQ_eq : epsQ = 1e-9 := by
  rw [epsQ, Rat.mkRat_eq_div]
  norm_num

/-- The sampling filter of parse_dvh_file (line 306 of src/DVH-Extractor.py):
abs(dose % d_interval) < 1e-9 or abs(dose % d_interval - d_interval) < 1e-9,
written with the executable operations. -/
def keepDose (d_interval dose : ℚ) : Bool :=
  qlt (qabs (qpmod dose d_interval)) epsQ ||
    qlt (qabs (qsub (qpmod dose d_interval) d_interval)) epsQ

theorem keepDose_iff (d_interval dose : ℚ) (hi : 0 < d_interval) :
    keepDose d_interval dose = true ↔
      |pmod dose d_interval| < 1e-9 ∨ |pmod dose d_interval - d_interval| < 1e-9 := by
  rw [keepDose, Bool.or_eq_true, qlt_iff, qlt_iff, qabs_eq, qabs_eq, qsub_eq,
    qpmod_eq dose d_interval hi, epsQ_eq]

/-- Value of a digit run (most significant first). -/
def digitsVal (cs : List Char) : Nat := cs.foldl (fun n c => n * 10 + (c.toNat - 48)) 0

/-- Are all characters decimal digits? -/
def allDigits (cs : List Char) : Bool := cs.all (fun c => c.isDigit)

/-- Mantissa of a decimal literal: digits with at most one dot, at least one
digit overall.  Returns the scaled integer value and the number of fractional
digits. -/
def parseMantissa (cs : List Char) : Option (Nat × Nat) :=
  let ip := cs.takeWhile (fun c => decide (c ≠ '.'))
  match cs.dropWhile (fun c => decide (c ≠ '.')) with
  | [] => if ip ≠ [] && allDigits ip then some (digitsVal ip, 0) else none
  | _ :: frac =>
    if (ip ≠ [] || frac ≠ []) && allDigits ip && allDigits frac &&
        !(frac.any (fun c => decide (c = '.'))) then
      some (digitsVal ip * 10 ^ frac.length + digitsVal frac, frac.length)
    else none

/-- Decimal exponent part (after the e/E): optional sign and digits. -/
def parseExpPart (cs : List Char) : Option Int :=
  match cs with
  | '+' :: ds => if ds ≠ [] && allDigits ds then some (Int.ofNat (digitsVal ds)) else none
  | '-' :: ds => if ds ≠ [] && allDigits ds then some (-(Int.ofNat (digitsVal ds))) else none
  | ds => if ds ≠ [] && allDigits ds then some (Int.ofNat (digitsVal ds)) else none

/-- The rational num / 10^scale * 10^e, built with mkRat so that it reduces. -/
def scaledVal (num : Nat) (scale : Nat) (e : Int) : ℚ :=
  if 0 ≤ e then mkRat (num * 10 ^ e.toNat) (10 ^ scale)
  else mkRat num (10 ^ scale * 10 ^ (-e).toNat)

/-- Unsigned part of Python float(): mantissa with optional e/E exponent. -/
def parseFloatCore (cs : List Char) : Option ℚ :=
  let mant := cs.takeWhile (fun c => decide (c ≠ 'e' ∧ c ≠ 'E'))
  match cs.dropWhile (fun c => decide (c ≠ 'e' ∧ c ≠ 'E')) with
  | [] => (parseMantissa mant).map (fun p => scaledVal p.1 p.2 0)
  | _ :: ex =>
    match parseMantissa mant, parseExpPart ex with
    | some p, some e => some (scaledVal p.1 p.2 e)
    | _, _ => none

/-- Python float() on a finite decimal literal: optional sign, digits with at
most one dot and at least one digit, optional decimal exponent.  The special
forms accepted by float() that cannot occur in DVH numeric tokens (inf, nan,
underscores, surrounding whitespace) are not modelled. -/
def parseFloat (cs : List Char) : Option ℚ :=
  match cs with
  | '+' :: rest => parseFloatCore rest
  | '-' :: rest => (parseFloatCore rest).map (fun q => -q)
  | _ => parseFloatCore cs

/-- A CSV cell as handed to csv.writer: either a string (possibly empty) or a
float value. -/
inductive Cell where
  | str (s : String)
  | num (q : ℚ)
deriving DecidableEq

/-- One structure section of a report: the four optional statistics strings
(keys Volume [cm³], Min Dose [%], Max Dose [%], Mean Dose [%]) and the dvh
dict from dose to volume. -/
structure StructureRec where
  volumeCm3 : Option String
  minDose : Option String
  maxDose : Option String
  meanDose : Option String
  dvh : List (ℚ × ℚ)
deriving DecidableEq

/-- The patient_data dict built by parse_dvh_file: the three optional
patient-level strings and the structures dict. -/
structure PatientData where
  patientName : Option String
  patientID : Option String
  prescribedDose : Option String
  structures : List (String × StructureRec)
deriving DecidableEq

/-- Parser state: patient_data plus the current_structure cursor. -/
structure ParseState where
  pdata : PatientData
  current_structure : Option String
deriving DecidableEq

/-- A fresh structure record (the Python dict with only an empty dvh). -/
def emptyStructureRec : StructureRec := ⟨none, none, none, none, []⟩

/-- Initial parser state: patient_data = dict with empty structures,
current_structure = None. -/
def state0 : ParseState := ⟨⟨none, none, none, []⟩, none⟩

/-- Update the record of the current structure (always present when used). -/
def setStructField (cur : String) (f : StructureRec → StructureRec) (st : ParseState) :
    ParseState :=
  { st with pdata :=
      { st.pdata with structures := dictUpd cur emptyStructureRec f st.pdata.structures } }

/-- The DVH-row test of line 300 of src/DVH-Extractor.py: the key consists of
one or more characters that are each a digit or a dot. -/
def isNumericKey (cs : List Char) : Bool :=
  decide (cs ≠ []) && cs.all (fun c => c.isDigit || c = '.')

/-- The DVH data-row branch of the line loop (lines 300-310): re-split the
line on whitespace, parse the dose-column token and the last token, and
retain the pair only when the sampling filter passes; a parse failure or a
missing index silently leaves the state unchanged. -/
def stepDvhRow (i : ℚ) (dci : Nat) (cur : String) (line : List Char) (st : ParseState) :
    ParseState :=
  match ((splitWs (pstrip line)).get? dci).bind parseFloat,
      (splitWs (pstrip line)).getLast?.bind parseFloat with
  | some dose, some volume =>
    if keepDose i dose then
      setStructField cur (fun r => { r with dvh := dictInsert dose volume r.dvh }) st
    else st
  | _, _ => st

/-- The inside-a-structure-section branch of the line loop (lines 297-310):
statistics keys are stored verbatim; a numeric key is treated as a DVH row;
anything else is ignored. -/
def stepStructLine (i : ℚ) (dci : Nat) (cur : String) (key : List Char) (val : String)
    (line : List Char) (st : ParseState) : ParseState :=
  if key = ("Volume [cm³]").data then
    setStructField cur (fun r => { r with volumeCm3 := some val }) st
  else if key = ("Min Dose [%]").data then
    setStructField cur (fun r => { r with minDose := some val }) st
  else if key = ("Max Dose [%]").data then
    setStructField cur (fun r => { r with maxDose := some val }) st
  else if key = ("Mean Dose [%]").data then
    setStructField cur (fun r => { r with meanDose := some val }) st
  else if isNumericKey key then stepDvhRow i dci cur line st
  else st

/-- One iteration of the line loop of parse_dvh_file
(src/DVH-Extractor.py lines 280-310).  Note the Python truthiness test
`elif current_structure:` which is false both for None and for the empty
string. -/
def stepLine (d_interval : ℚ) (dose_col_index : Nat) (st : ParseState) (rawLine : List Char) :
    ParseState :=
  if pstrip rawLine = [] then st
  else if (splitKeyVal (pstrip rawLine)).1 = ("Patient Name").data then
    { st with pdata := { st.pdata with patientName := some (String.mk (splitKeyVal (pstrip rawLine)).2) } }
  else if (splitKeyVal (pstrip rawLine)).1 = ("Patient ID").data then
    { st with pdata := { st.pdata with patientID := some (String.mk (splitKeyVal (pstrip rawLine)).2) } }
  else if (splitKeyVal (pstrip rawLine)).1 = ("Prescribed dose [Gy]").data then
    { st with pdata :=
        { st.pdata with prescribedDose := some (String.mk (splitKeyVal (pstrip rawLine)).2) } }
  else if (splitKeyVal (pstrip rawLine)).1 = ("Structure").data then
    { pdata :=
        { st.pdata with
            structures := dictInsert (String.mk (splitKeyVal (pstrip rawLine)).2)
              emptyStructureRec st.pdata.structures },
      current_structure := some (String.mk (splitKeyVal (pstrip rawLine)).2) }
  else
    match st.current_structure with
    | none => st
    | some cur =>
      if cur = "" then st
      else
        stepStructLine d_interval dose_col_index cur (splitKeyVal (pstrip rawLine)).1
          (String.mk (splitKeyVal (pstrip rawLine)).2) (pstrip rawLine) st

/-- parse_dvh_file (src/DVH-Extractor.py lines 274-311) on the stripped lines
of one report file. -/
def parse_dvh_file (d_interval : ℚ) (dose_col_index : Nat) (lines : List (List Char)) :
    PatientData :=
  (lines.foldl (stepLine d_interval dose_col_index) state0).pdata

/-- parse_folder (src/DVH-Extractor.py lines 254-271): parse every file and
key the batch by Patient ID; a record without a Patient ID entry is dropped.
(patient_data is never an empty dict - it always holds the structures key -
so the Python truthiness test on it is always true.) -/
def parse_folder (d_interval : ℚ) (dose_col_index : Nat) (files : List (List (List Char))) :
    List (String × PatientData) :=
  files.foldl
    (fun acc f =>
      let pd := parse_dvh_file d_interval dose_col_index f
      match pd.patientID with
      | some pid => dictInsert pid pd acc
      | none => acc)
    []

/-- dose_unit as computed by both writers (lines 315, 380). -/
def doseUnitOf (dose_type : String) : String := if dose_type = "%" then "[%]" else "[Gy]"

/-- structure_names = sorted(structures.keys()) of write_patient_csvs
(line 327): the structure names in codepoint-lexicographic order. -/
def structure_names (pd : PatientData) : List String :=
  List.insertionSort (fun a b => strLe a b = true) (dictKeys pd.structures)

/-- sorted_doses of write_patient_csvs (lines 326-334): the set union of all
dose values over all structures of the patient, sorted ascending. -/
def sorted_doses (pd : PatientData) : List ℚ :=
  List.insertionSort (fun a b => qle a b = true)
    ((pd.structures.flatMap (fun e => e.2.dvh.map Prod.fst)).dedup)

/-- The wide-table cell of write_patient_csvs (line 374):
structures[str_name].get('dvh', {}).get(dose, ''). -/
def dvhCell (pd : PatientData) (sname : String) (d : ℚ) : Cell :=
  match dictGet sname pd.structures with
  | some sd =>
    match dictGet d sd.dvh with
    | some v => Cell.num v
    | none => Cell.str ("")
  | none => Cell.str ("")

/-- One summary row of write_patient_csvs (lines 349-358); the structure name
is always a key of the dict, so the fallback row is unreachable. -/
def statsRowFor (pd : PatientData) (n : String) : List Cell :=
  match dictGet n pd.structures with
  | some sd =>
    [Cell.str n, Cell.str (sd.volumeCm3.getD ("")), Cell.str (sd.minDose.getD ("")),
      Cell.str (sd.maxDose.getD ("")), Cell.str (sd.meanDose.getD (""))]
  | none => [Cell.str n, Cell.str (""), Cell.str (""), Cell.str (""), Cell.str ("")]

/-- All rows of one patient CSV, in the order write_patient_csvs writes them
(lines 337-376): three metadata rows, a blank row, the statistics header and
rows, a blank row, the wide DVH header, and one row per sorted dose. -/
def write_patient_rows (dose_type : String) (pd : PatientData) : List (List Cell) :=
  [[Cell.str ("Patient Name"), Cell.str (pd.patientName.getD (""))],
    [Cell.str ("Patient ID"), Cell.str (pd.patientID.getD (""))],
    [Cell.str ("Prescribed dose [Gy]"), Cell.str (pd.prescribedDose.getD (""))],
    [],
    [Cell.str ("Structure Name"), Cell.str ("Volume [cm³]"), Cell.str ("Min Dose [%]"),
      Cell.str ("Max Dose [%]"), Cell.str ("Mean Dose [%]")]]
  ++ (structure_names pd).map (statsRowFor pd)
  ++ [[]]
  ++ ((Cell.str ("Dose " ++ doseUnitOf dose_type) ::
        (structure_names pd).map (fun n => Cell.str (n ++ "_Volume [%]")))
      :: (sorted_doses pd).map (fun d =>
          Cell.num d :: (structure_names pd).map (fun n => dvhCell pd n d)))

/-- write_patient_csvs (lines 314-376): one emitted file (name, rows) per
patient with at least one structure; a patient with no structures is skipped. -/
def write_patient_csvs (dose_type : String) (batch : List (String × PatientData)) :
    List (String × List (List Cell)) :=
  batch.filterMap (fun e =>
    if e.2.structures = [] then none
    else some (e.1 ++ ".csv", write_patient_rows dose_type e.2))

/-- The defaultdict assignment structure_data[str_name][pid][dose] = volume of
write_structure_csvs (line 393). -/
def upd3 (sname pid : String) (d v : ℚ)
    (m : List (String × List (String × List (ℚ × ℚ)))) :
    List (String × List (String × List (ℚ × ℚ))) :=
  dictUpd sname [] (fun pm => dictUpd pid [] (fun dm => dictInsert d v dm) pm) m

/-- The inner dvh loop of the regrouping (line 391): store every (dose,
volume) pair of one structure of one patient. -/
def addStructDvh (sname pid : String) (dvh : List (ℚ × ℚ))
    (acc : List (String × List (String × List (ℚ × ℚ)))) :
    List (String × List (String × List (ℚ × ℚ))) :=
  dvh.foldl (fun a dv => upd3 sname pid dv.1 dv.2 a) acc

/-- The structures loop of the regrouping (line 389). -/
def addPatientStructs (pid : String) (structs : List (String × StructureRec))
    (acc : List (String × List (String × List (ℚ × ℚ)))) :
    List (String × List (String × List (ℚ × ℚ))) :=
  structs.foldl (fun a se => addStructDvh se.1 pid se.2.dvh a) acc

/-- structure_data of write_structure_csvs (lines 383-394): regroup the batch
as structure name → patient id → dose → volume.  A structure entry is created
only when a dose/volume pair is actually stored, exactly as the defaultdict
is only touched inside the dvh loop. -/
def structure_data (batch : List (String × PatientData)) :
    List (String × List (String × List (ℚ × ℚ))) :=
  batch.foldl (fun acc e => addPatientStructs e.1 e.2.structures acc) []

/-- all_doses of write_structure_csvs (lines 384, 394, 396): the set of all
dose values over the whole batch, sorted ascending. -/
def batch_doses (batch : List (String × PatientData)) : List ℚ :=
  List.insertionSort (fun a b => qle a b = true)
    ((batch.flatMap (fun e => e.2.structures.flatMap (fun se => se.2.dvh.map Prod.fst))).dedup)

/-- patient_ids of write_structure_csvs in src/DVH-Extractor.py (line 385):
sorted(all_patients_data.keys()). -/
def patient_ids (batch : List (String × PatientData)) : List String :=
  List.insertionSort (fun a b => strLe a b = true) (dictKeys batch)

/-- patient_ids of write_structure_csvs in src/dvh2_csv_improved.py
(line 284 of that file): list(all_patients_data.keys()) without sorting, that
is, batch insertion order. -/
def patient_ids_improved (batch : List (String × PatientData)) : List String := dictKeys batch

/-- One character of the filename sanitization of line 401. -/
def sanitizeChar (c : Char) : Char :=
  if c = '\\' || c = '/' || c = ':' || c = '*' || c = '?' || c = '"' ||
      c = '<' || c = '>' || c = '|' then '_'
  else c

/-- safe_str_name of write_structure_csvs (line 401): the single-character
class re.sub replaces every occurrence of each listed character. -/
def safe_str_name (s : String) : String := String.mk (s.data.map sanitizeChar)

/-- The structure CSV filename of line 402. -/
def structureFile (s : String) : String := "structure_" ++ safe_str_name s ++ ".csv"

/-- The structure-CSV data cell of line 416: patients.get(pid, {}).get(dose, ''). -/
def structCellVal (patients : List (String × List (ℚ × ℚ))) (pid : String) (d : ℚ) : Cell :=
  match dictGet pid patients with
  | some dm =>
    match dictGet d dm with
    | some v => Cell.num v
    | none => Cell.str ("")
  | none => Cell.str ("")

/-- All rows of one structure CSV (lines 404-418): the header (dose column
then the patient identifiers) and one row per sorted global dose. -/
def structRows (dose_type : String) (ids : List String) (doses : List ℚ)
    (patients : List (String × List (ℚ × ℚ))) : List (List Cell) :=
  (Cell.str ("Dose " ++ doseUnitOf dose_type) :: ids.map Cell.str)
    :: doses.map (fun d => Cell.num d :: ids.map (fun pid => structCellVal patients pid d))

/-- write_structure_csvs of src/DVH-Extractor.py (lines 379-418): one emitted
file per structure_data entry, with the sorted patient-identifier columns. -/
def write_structure_csvs (dose_type : String) (batch : List (String × PatientData)) :
    List (String × List (List Cell)) :=
  (structure_data batch).map (fun se =>
    (structureFile se.1, structRows dose_type (patient_ids batch) (batch_doses batch) se.2))

/-- write_structure_csvs of src/dvh2_csv_improved.py: identical except that
the patient-identifier columns are in batch insertion order. -/
def write_structure_csvs_improved (dose_type : String) (batch : List (String × PatientData)) :
    List (String × List (List Cell)) :=
  (structure_data batch).map (fun se =>
    (structureFile se.1,
      structRows dose_type (patient_ids_improved batch) (batch_doses batch) se.2))

theorem dropWhile_self_idem (p : Char → Bool) (l : List Char) :
    (l.dropWhile p).dropWhile p = l.dropWhile p := by
  induction l with
  | nil => rfl
  | cons c t ih =>
    by_cases h : p c
    · simp [List.dropWhile_cons, h, ih]
    · simp [List.dropWhile_cons, h]

theorem head_false_of_dropWhile (p : Char → Bool) (l : List Char) {c : Char} {t : List Char}
    (h : l.dropWhile p = c :: t) : p c = false := by
  induction l with
  | nil => simp [List.dropWhile] at h
  | cons c0 t0 ih =>
    by_cases h0 : p c0
    · rw [List.dropWhile_cons, if_pos h0] at h
      exact ih h
    · rw [List.dropWhile_cons, if_neg h0] at h
      obtain ⟨rfl, rfl⟩ := List.cons.injEq .. ▸ h
      · exact Bool.eq_false_iff.mpr h0

theorem dropWhile_eq_self_of_head (p : Char → Bool) (l : List Char)
    (h : ∀ c t, l = c :: t → p c = false) : l.dropWhile p = l := by
  cases l with
  | nil => rfl
  | cons c t =>
    rw [List.dropWhile_cons, if_neg]
    rw [h c t rfl]
    simp

theorem getLast?_dropWhile (p : Char → Bool) (l : List Char) (h : l.dropWhile p ≠ []) :
    (l.dropWhile p).getLast? = l.getLast? := by
  induction l with
  | nil => rfl
  | cons c t ih =>
    by_cases h0 : p c
    · rw [List.dropWhile_cons, if_pos h0] at h ⊢
      rw [ih h]
      have ht : t ≠ [] := by
        intro he
        rw [he] at h
        simp [List.dropWhile] at h
      cases t with
      | nil => exact absurd rfl ht
      | cons c1 t1 => simp [List.getLast?_cons_cons]
    · rw [List.dropWhile_cons, if_neg h0]

theorem pstrip_idem (cs : List Char) : pstrip (pstrip cs) = pstrip cs := by
  unfold pstrip
  have h1 : ((cs.dropWhile (fun c => isWs c)).reverse.dropWhile
      (fun c => isWs c)).reverse.dropWhile (fun c => isWs c) =
      ((cs.dropWhile (fun c => isWs c)).reverse.dropWhile (fun c => isWs c)).reverse := by
    apply dropWhile_eq_self_of_head
    intro c t hct
    have hY : (cs.dropWhile (fun c => isWs c)).reverse.dropWhile (fun c => isWs c) ≠ [] := by
      intro he
      rw [he] at hct
      simp at hct
    have hlast : ((cs.dropWhile (fun c => isWs c)).reverse.dropWhile
        (fun c => isWs c)).getLast? = some c := by
      rw [← List.head?_reverse, hct]
      rfl
    rw [getLast?_dropWhile _ _ hY, List.getLast?_reverse] at hlast
    obtain ⟨t', ht'⟩ : ∃ t', cs.dropWhile (fun c => isWs c) = c :: t' := by
      cases hA : cs.dropWhile (fun c => isWs c) with
      | nil => rw [hA] at hlast; simp at hlast
      | cons c0 t0 =>
        rw [hA] at hlast
        simp at hlast
        exact ⟨t0, by rw [hlast]⟩
    exact head_false_of_dropWhile _ _ ht'
  rw [h1, List.reverse_reverse, dropWhile_self_idem]

theorem isNumericKey_ne_keys (k : List Char) (hk : isNumericKey k = true) :
    k ≠ ("Patient Name").data ∧ k ≠ ("Patient ID").data ∧
    k ≠ ("Prescribed dose [Gy]").data ∧ k ≠ ("Structure").data ∧
    k ≠ ("Volume [cm³]").data ∧ k ≠ ("Min Dose [%]").data ∧
    k ≠ ("Max Dose [%]").data ∧ k ≠ ("Mean Dose [%]").data := by
  refine ⟨?_, ?_, ?_, ?_, ?_, ?_, ?_, ?_⟩ <;>
    · intro he
      rw [he] at hk
      exact absurd hk (by decide)

theorem stepLine_eq_pstrip (i : ℚ) (dci : Nat) (st : ParseState) (l : List Char) :
    stepLine i dci st l = stepLine i dci st (pstrip l) := by
  simp only [stepLine, pstrip_idem]

theorem stepLine_to_struct (i : ℚ) (dci : Nat) (st : ParseState) (l : List Char) (cur : String)
    (hl : pstrip l = l) (hne : l ≠ [])
    (hkey : isNumericKey (splitKeyVal l).1 = true)
    (hcur : st.current_structure = some cur) (hcne : cur ≠ "") :
    stepLine i dci st l =
      stepStructLine i dci cur (splitKeyVal l).1 ⟨(splitKeyVal l).2⟩ l st := by
  obtain ⟨h1, h2, h3, h4, h5, h6, h7, h8⟩ := isNumericKey_ne_keys _ hkey
  simp only [stepLine, hl, if_neg hne, if_neg h1, if_neg h2, if_neg h3, if_neg h4, hcur,
    if_neg hcne]

theorem stepStructLine_numeric (i : ℚ) (dci : Nat) (cur : String) (key : List Char)
    (val : String) (l : List Char) (st : ParseState)
    (hkey : isNumericKey key = true) :
    stepStructLine i dci cur key val l st = stepDvhRow i dci cur l st := by
  obtain ⟨h1, h2, h3, h4, h5, h6, h7, h8⟩ := isNumericKey_ne_keys _ hkey
  simp only [stepStructLine, if_neg h5, if_neg h6, if_neg h7, if_neg h8, hkey, if_true]

theorem stepLine_dvh_row (i : ℚ) (dci : Nat) (st : ParseState) (l : List Char) (cur : String)
    (d v : ℚ) (hl : pstrip l = l) (hne : l ≠ [])
    (hkey : isNumericKey (splitKeyVal l).1 = true)
    (hcur : st.current_structure = some cur) (hcne : cur ≠ "")
    (hd : ((splitWs l).get? dci).bind parseFloat = some d)
    (hv : (splitWs l).getLast?.bind parseFloat = some v) :
    stepLine i dci st l =
      if keepDose i d then
        setStructField cur (fun r => { r with dvh := dictInsert d v r.dvh }) st
      else st := by
  rw [stepLine_to_struct i dci st l cur hl hne hkey hcur hcne,
    stepStructLine_numeric _ _ _ _ _ _ _ hkey]
  simp only [stepDvhRow, hl, hd, hv]

theorem stepLine_dvh_row_bad (i : ℚ) (dci : Nat) (st : ParseState) (l : List Char) (cur : String)
    (hl : pstrip l = l) (hne : l ≠ [])
    (hkey : isNumericKey (splitKeyVal l).1 = true)
    (hcur : st.current_structure = some cur) (hcne : cur ≠ "")
    (hbad : ((splitWs l).get? dci).bind parseFloat = none ∨
      (splitWs l).getLast?.bind parseFloat = none) :
    stepLine i dci st l = st := by
  rw [stepLine_to_struct i dci st l cur hl hne hkey hcur hcne,
    stepStructLine_numeric _ _ _ _ _ _ _ hkey]
  simp only [stepDvhRow, hl]
  rcases hbad with hb | hb
  · rw [hb]
  · rw [hb]
    cases ((splitWs l).get? dci).bind parseFloat <;> rfl

theorem stepLine_numeric_no_struct (i : ℚ) (dci : Nat) (st : ParseState) (l : List Char)
    (hl : pstrip l = l) (hne : l ≠ [])
    (hkey : isNumericKey (splitKeyVal l).1 = true)
    (hcur : st.current_structure = none ∨ st.current_structure = some "") :
    stepLine i dci st l = st := by
  obtain ⟨h1, h2, h3, h4, h5, h6, h7, h8⟩ := isNumericKey_ne_keys _ hkey
  rcases hcur with hc | hc <;>
    simp [stepLine, hl, hne, h1, h2, h3, h4, hc]

theorem parse_dvh_file_skip (i : ℚ) (dci : Nat) (pre post : List (List Char)) (l : List Char)
    (h : ∀ st, stepLine i dci st l = st) :
    parse_dvh_file i dci (pre ++ l :: post) = parse_dvh_file i dci (pre ++ post) := by
  unfold parse_dvh_file
  rw [List.foldl_append, List.foldl_append, List.foldl_cons, h]

theorem dictInsert_forall {K V : Type} [DecidableEq K] {P : K × V → Prop} (k : K) (v : V)
    (m : List (K × V)) (hm : ∀ e ∈ m, P e) (h1 : P (k, v)) :
    ∀ e ∈ dictInsert k v m, P e := by
  induction m with
  | nil =>
    intro e he
    simp [dictInsert] at he
    rw [he]
    exact h1
  | cons e0 t ih =>
    obtain ⟨k0, v0⟩ := e0
    intro e he
    by_cases h0 : k0 = k
    · rw [dictInsert, if_pos h0] at he
      rcases List.mem_cons.mp he with he' | he'
      · rw [he']
        exact h1
      · exact hm e (List.mem_cons_of_mem _ he')
    · rw [dictInsert, if_neg h0] at he
      rcases List.mem_cons.mp he with he' | he'
      · rw [he']
        exact hm _ (List.mem_cons_self _ _)
      · exact ih (fun e' he'' => hm e' (List.mem_cons_of_mem _ he'')) e he'

theorem dictUpd_forall {K V : Type} [DecidableEq K] {P : K × V → Prop} (k : K) (dflt : V)
    (f : V → V) (m : List (K × V)) (hm : ∀ e ∈ m, P e) (h1 : P (k, f dflt))
    (h2 : ∀ v, P (k, v) → P (k, f v)) :
    ∀ e ∈ dictUpd k dflt f m, P e := by
  induction m with
  | nil =>
    intro e he
    simp [dictUpd] at he
    rw [he]
    exact h1
  | cons e0 t ih =>
    obtain ⟨k0, v0⟩ := e0
    intro e he
    by_cases h0 : k0 = k
    · rw [dictUpd, if_pos h0] at he
      rcases List.mem_cons.mp he with he' | he'
      · rw [he']
        subst h0
        exact h2 v0 (hm _ (List.mem_cons_self _ _))
      · exact hm e (List.mem_cons_of_mem _ he')
    · rw [dictUpd, if_neg h0] at he
      rcases List.mem_cons.mp he with he' | he'
      · rw [he']
        exact hm _ (List.mem_cons_self _ _)
      · exact ih (fun e' he'' => hm e' (List.mem_cons_of_mem _ he'')) e he'

/-- Well-formedness of the parser state: structure names are unique and every
structure has unique dvh doses (Python dict key uniqueness). -/
def stInv (st : ParseState) : Prop :=
  (dictKeys st.pdata.structures).Nodup ∧
    ∀ e ∈ st.pdata.structures, (dictKeys e.2.dvh).Nodup

theorem stInv_state0 : stInv state0 := by
  constructor
  · simp [state0, dictKeys]
  · intro e he
    simp [state0] at he

theorem stInv_setStructField (cur : String) (f : StructureRec → StructureRec)
    (st : ParseState) (h : stInv st)
    (hf : ∀ r, (dictKeys r.dvh).Nodup → (dictKeys (f r).dvh).Nodup)
    (h0 : (dictKeys (f emptyStructureRec).dvh).Nodup) :
    stInv (setStructField cur f st) := by
  obtain ⟨hk, hv⟩ := h
  refine ⟨nodup_dictKeys_upd _ _ _ _ hk, ?_⟩
  exact dictUpd_forall _ _ _ _ hv h0 (fun v hvnd => hf v hvnd)

theorem stInv_stepDvhRow (i : ℚ) (dci : Nat) (cur : String) (line : List Char)
    (st : ParseState) (h : stInv st) : stInv (stepDvhRow i dci cur line st) := by
  unfold stepDvhRow
  split
  · split
    · refine stInv_setStructField _ _ _ h (fun r hr => nodup_dictKeys_insert _ _ _ hr) ?_
      simp [emptyStructureRec, dictKeys, dictInsert]
    · exact h
  · exact h

theorem stInv_stepStructLine (i : ℚ) (dci : Nat) (cur : String) (key : List Char)
    (val : String) (line : List Char) (st : ParseState) (h : stInv st) :
    stInv (stepStructLine i dci cur key val line st) := by
  unfold stepStructLine
  have hstat : ∀ f : StructureRec → StructureRec, (∀ r, (f r).dvh = r.dvh) →
      stInv (setStructField cur f st) := by
    intro f hf
    refine stInv_setStructField _ _ _ h (fun r hr => by rw [hf]; exact hr) ?_
    rw [hf]
    simp [emptyStructureRec, dictKeys]
  split
  · exact hstat _ (fun r => rfl)
  split
  · exact hstat _ (fun r => rfl)
  split
  · exact hstat _ (fun r => rfl)
  split
  · exact hstat _ (fun r => rfl)
  split
  · exact stInv_stepDvhRow _ _ _ _ _ h
  · exact h

theorem stInv_stepLine (i : ℚ) (dci : Nat) (st : ParseState) (l : List Char) (h : stInv st) :
    stInv (stepLine i dci st l) := by
  obtain ⟨hk, hv⟩ := h
  unfold stepLine
  split
  · exact ⟨hk, hv⟩
  split
  · exact ⟨hk, hv⟩
  split
  · exact ⟨hk, hv⟩
  split
  · exact ⟨hk, hv⟩
  split
  · exact ⟨nodup_dictKeys_insert _ _ _ hk,
      dictInsert_forall _ _ _ hv (by simp [emptyStructureRec, dictKeys])⟩
  split
  · exact ⟨hk, hv⟩
  split
  · exact ⟨hk, hv⟩
  · exact stInv_stepStructLine _ _ _ _ _ _ _ ⟨hk, hv⟩

theorem stInv_parse (i : ℚ) (dci : Nat) (lines : List (List Char)) :
    stInv (lines.foldl (stepLine i dci) state0) := by
  have haux : ∀ (ls : List (List Char)) (st : ParseState), stInv st →
      stInv (ls.foldl (stepLine i dci) st) := by
    intro ls
    induction ls with
    | nil => exact fun st h => h
    | cons l t ih => exact fun st h => ih _ (stInv_stepLine _ _ _ _ h)
  exact haux lines state0 stInv_state0

theorem parse_dvh_file_inv (i : ℚ) (dci : Nat) (lines : List (List Char)) :
    (dictKeys (parse_dvh_file i dci lines).structures).Nodup ∧
    ∀ e ∈ (parse_dvh_file i dci lines).structures, (dictKeys e.2.dvh).Nodup :=
  stInv_parse i dci lines

theorem parse_folder_nodup (i : ℚ) (dci : Nat) (files : List (List (List Char))) :
    (dictKeys (parse_folder i dci files)).Nodup := by
  unfold parse_folder
  have haux : ∀ (fs : List (List (List Char))) (acc : List (String × PatientData)),
      (dictKeys acc).Nodup →
      (dictKeys (fs.foldl (fun acc f =>
        match (parse_dvh_file i dci f).patientID with
        | some pid => dictInsert pid (parse_dvh_file i dci f) acc
        | none => acc) acc)).Nodup := by
    intro fs
    induction fs with
    | nil => exact fun acc h => h
    | cons f t ih =>
      intro acc h
      refine ih _ ?_
      show (dictKeys (match (parse_dvh_file i dci f).patientID with
        | some pid => dictInsert pid (parse_dvh_file i dci f) acc
        | none => acc)).Nodup
      cases (parse_dvh_file i dci f).patientID with
      | none => exact h
      | some pid => exact nodup_dictKeys_insert _ _ _ h
  simpa using haux files [] (by simp [dictKeys])

/-- C7: an input line classified as a numeric DVH row whose dose-column token
or last token fails to parse as a real number, or whose token list is too
short for the configured dose-column index, is silently discarded: the parser
state is unchanged for every state (the embedding is a total function, so no
exception propagates), and the Patient Record built from the file's other
lines is unaffected. -/
theorem C7_malformed_row_dropped (i : ℚ) (dci : Nat) (l : List Char)
    (pre post : List (List Char)) (hl : pstrip l = l) (hne : l ≠ [])
    (hkey : isNumericKey (splitKeyVal l).1 = true)
    (hbad : ((splitWs l).get? dci).bind parseFloat = none ∨
      (splitWs l).getLast?.bind parseFloat = none) :
    (∀ st, stepLine i dci st l = st) ∧
      parse_dvh_file i dci (pre ++ l :: post) = parse_dvh_file i dci (pre ++ post) := by
  have hstep : ∀ st : ParseState, stepLine i dci st l = st := by
    intro st
    cases hcur : st.current_structure with
    | none => exact stepLine_numeric_no_struct i dci st l hl hne hkey (Or.inl hcur)
    | some cur =>
      by_cases hc : cur = ""
      · subst hc
        exact stepLine_numeric_no_struct i dci st l hl hne hkey (Or.inr hcur)
      · exact stepLine_dvh_row_bad i dci st l cur hl hne hkey hcur hc hbad
  exact ⟨hstep, parse_dvh_file_skip i dci pre post l hstep⟩

theorem C7_witness :
    (pstrip (("50  abc").data) = ("50  abc").data ∧ ("50  abc").data ≠ [] ∧
      isNumericKey (splitKeyVal (("50  abc").data)).1 = true ∧
      (splitWs (("50  abc").data)).getLast?.bind parseFloat = none) ∧
    parse_dvh_file 1 0 ([("Patient ID : P1").data] ++ ("50  abc").data :: []) =
      parse_dvh_file 1 0 ([("Patient ID : P1").data] ++ []) := by
  refine ⟨⟨by decide, by decide, by decide, by decide⟩, ?_⟩
  exact (C7_malformed_row_dropped 1 0 (("50  abc").data) [("Patient ID : P1").data] []
    (by decide) (by decide) (by decide) (Or.inr (by decide))).2

/-- C3: for a line the parser treats as a DVH data row yielding dose d and a
volume, with the sampling interval drawn from {0.1, 0.5, 1, 5, 10}, the pair
is retained in the current structure's dvh mapping iff d modulo the interval
is within 1e-9 of 0 or within 1e-9 of the interval; a pair failing the test
is computed but discarded, leaving the state unchanged (it is not an error). -/
theorem C3_sampling_filter (i : ℚ) (dci : Nat) (st : ParseState) (l : List Char)
    (cur : String) (rec0 : StructureRec) (d v : ℚ)
    (hi : i ∈ [(0.1 : ℚ), 0.5, 1, 5, 10])
    (hl : pstrip l = l) (hne : l ≠ [])
    (hkey : isNumericKey (splitKeyVal l).1 = true)
    (hcur : st.current_structure = some cur) (hcne : cur ≠ "")
    (hrec : dictGet cur st.pdata.structures = some rec0)
    (hd : ((splitWs l).get? dci).bind parseFloat = some d)
    (hv : (splitWs l).getLast?.bind parseFloat = some v) :
    ((|pmod d i| < 1e-9 ∨ |pmod d i - i| < 1e-9) →
        dictGet cur (stepLine i dci st l).pdata.structures =
          some { rec0 with dvh := dictInsert d v rec0.dvh }) ∧
    (¬ (|pmod d i| < 1e-9 ∨ |pmod d i - i| < 1e-9) → stepLine i dci st l = st) := by
  have hpos : 0 < i := by
    simp only [List.mem_cons, List.not_mem_nil, or_false] at hi
    rcases hi with h | h | h | h | h <;> rw [h] <;> norm_num
  have hkiff := keepDose_iff i d hpos
  rw [stepLine_dvh_row i dci st l cur d v hl hne hkey hcur hcne hd hv]
  constructor
  · intro hcond
    rw [if_pos (hkiff.mpr hcond)]
    simp only [setStructField]
    rw [dictGet_upd_self, hrec]
    rfl
  · intro hcond
    rw [if_neg (fun hh => hcond (hkiff.mp hh))]

theorem C3_witness :
    ((1 : ℚ) ∈ [(0.1 : ℚ), 0.5, 1, 5, 10] ∧
      (|pmod 50 1| < 1e-9 ∨ |pmod 50 1 - 1| < 1e-9)) ∧
    dictGet ("PTV")
        (stepLine 1 0 ⟨⟨none, some ("P1"), none, [(("PTV"), emptyStructureRec)]⟩,
          some ("PTV")⟩ (("50  10.0  95.2").data)).pdata.structures =
      some { emptyStructureRec with dvh := dictInsert 50 (mkRat 952 10) [] } := by
  have hmem : (1 : ℚ) ∈ [(0.1 : ℚ), 0.5, 1, 5, 10] := by norm_num
  have hcond : |pmod 50 1| < 1e-9 ∨ |pmod 50 1 - 1| < 1e-9 := by
    left
    unfold pmod
    norm_num
  refine ⟨⟨hmem, hcond⟩, ?_⟩
  exact (C3_sampling_filter 1 0
    ⟨⟨none, some ("P1"), none, [(("PTV"), emptyStructureRec)]⟩, some ("PTV")⟩
    (("50  10.0  95.2").data) ("PTV") emptyStructureRec 50 (mkRat 952 10)
    hmem (by decide) (by decide) (by decide) rfl (by decide) (by decide)
    (by decide) (by decide)).1 hcond

/-- C8: in every Structure Record produced by parsing one report each dose
value appears at most once in the dvh mapping; and when a structure section
contains a second DVH row with a dose already present, the later row's volume
overwrites the earlier one. -/
theorem C8_duplicate_dose :
    (∀ (i : ℚ) (dci : Nat) (lines : List (List Char)) (s : String) (r : StructureRec),
        dictGet s (parse_dvh_file i dci lines).structures = some r →
        (dictKeys r.dvh).Nodup) ∧
    (∀ (i : ℚ) (dci : Nat) (st : ParseState) (l : List Char) (cur : String)
        (rec0 : StructureRec) (d v1 v2 : ℚ),
        pstrip l = l → l ≠ [] →
        isNumericKey (splitKeyVal l).1 = true →
        st.current_structure = some cur → cur ≠ "" →
        dictGet cur st.pdata.structures = some rec0 →
        dictGet d rec0.dvh = some v1 →
        ((splitWs l).get? dci).bind parseFloat = some d →
        (splitWs l).getLast?.bind parseFloat = some v2 →
        keepDose i d = true →
        dictGet cur (stepLine i dci st l).pdata.structures =
            some { rec0 with dvh := dictInsert d v2 rec0.dvh } ∧
          dictGet d (dictInsert d v2 rec0.dvh) = some v2) := by
  constructor
  · intro i dci lines s r hget
    exact (parse_dvh_file_inv i dci lines).2 _ (dictGet_eq_some_mem hget)
  · intro i dci st l cur rec0 d v1 v2 hl hne hkey hcur hcne hrec hv1 hd hv2 hkeep
    constructor
    · rw [stepLine_dvh_row i dci st l cur d v2 hl hne hkey hcur hcne hd hv2, if_pos hkeep]
      simp only [setStructField]
      rw [dictGet_upd_self, hrec]
      rfl
    · exact dictGet_insert_self d v2 rec0.dvh

theorem C8_witness :
    (dictGet ("PTV") (parse_dvh_file 1 0
        [("Patient ID : P1").data, ("Structure : PTV").data,
          ("50  10.0  95.2").data, ("50  10.0  80.5").data]).structures =
      some { emptyStructureRec with dvh := [(50, mkRat 805 10)] } ∧
      (dictKeys ([(50, mkRat 805 10)] : List (ℚ × ℚ))).Nodup) ∧
    dictGet ("S")
        (stepLine 1 0 ⟨⟨none, some ("P1"), none,
            [(("S"), { emptyStructureRec with dvh := [(50, mkRat 952 10)] })]⟩,
          some ("S")⟩ (("50  10.0  80.5").data)).pdata.structures =
      some { emptyStructureRec with dvh := [(50, mkRat 805 10)] } := by
  refine ⟨⟨by decide, ?_⟩, ?_⟩
  · exact C8_duplicate_dose.1 1 0
      [("Patient ID : P1").data, ("Structure : PTV").data,
        ("50  10.0  95.2").data, ("50  10.0  80.5").data] ("PTV")
      { emptyStructureRec with dvh := [(50, mkRat 805 10)] } (by decide)
  · have h := (C8_duplicate_dose.2 1 0
      ⟨⟨none, some ("P1"), none,
          [(("S"), { emptyStructureRec with dvh := [(50, mkRat 952 10)] })]⟩, some ("S")⟩
      (("50  10.0  80.5").data) ("S")
      { emptyStructureRec with dvh := [(50, mkRat 952 10)] } 50 (mkRat 952 10) (mkRat 805 10)
      (by decide) (by decide) (by decide) rfl (by decide) (by decide) (by decide)
      (by decide) (by decide) (by decide)).1
    simpa using h

theorem stepDvhRow_patientID (i : ℚ) (dci : Nat) (cur : String) (line : List Char)
    (st : ParseState) : (stepDvhRow i dci cur line st).pdata.patientID = st.pdata.patientID := by
  unfold stepDvhRow
  split
  · split <;> rfl
  · rfl

theorem stepStructLine_patientID (i : ℚ) (dci : Nat) (cur : String) (key : List Char)
    (val : String) (line : List Char) (st : ParseState) :
    (stepStructLine i dci cur key val line st).pdata.patientID = st.pdata.patientID := by
  unfold stepStructLine
  split
  · rfl
  split
  · rfl
  split
  · rfl
  split
  · rfl
  split
  · exact stepDvhRow_patientID _ _ _ _ _
  · rfl

theorem stepLine_patientID_ne (i : ℚ) (dci : Nat) (st : ParseState) (l : List Char)
    (h : (splitKeyVal (pstrip l)).1 ≠ ("Patient ID").data) :
    (stepLine i dci st l).pdata.patientID = st.pdata.patientID := by
  unfold stepLine
  by_cases h0 : pstrip l = []
  · rw [if_pos h0]
  rw [if_neg h0]
  by_cases h1 : (splitKeyVal (pstrip l)).1 = ("Patient Name").data
  · rw [if_pos h1]
  rw [if_neg h1, if_neg h]
  by_cases h3 : (splitKeyVal (pstrip l)).1 = ("Prescribed dose [Gy]").data
  · rw [if_pos h3]
  rw [if_neg h3]
  by_cases h4 : (splitKeyVal (pstrip l)).1 = ("Structure").data
  · rw [if_pos h4]
  rw [if_neg h4]
  cases hc : st.current_structure with
  | none => rfl
  | some cur =>
    show (if cur = "" then st
      else stepStructLine i dci cur (splitKeyVal (pstrip l)).1
        (String.mk (splitKeyVal (pstrip l)).2) (pstrip l) st).pdata.patientID =
      st.pdata.patientID
    by_cases h5 : cur = ""
    · rw [if_pos h5]
    · rw [if_neg h5]
      exact stepStructLine_patientID _ _ _ _ _ _ _

theorem stepLine_patientID_set (i : ℚ) (dci : Nat) (st : ParseState) (l : List Char)
    (hne : pstrip l ≠ [])
    (hkv : (splitKeyVal (pstrip l)).1 = ("Patient ID").data) :
    (stepLine i dci st l).pdata.patientID =
      some (String.mk (splitKeyVal (pstrip l)).2) := by
  have h1 : (splitKeyVal (pstrip l)).1 ≠ ("Patient Name").data := by
    rw [hkv]
    decide
  unfold stepLine
  rw [if_neg hne, if_neg h1, if_pos hkv]

theorem foldl_patientID_ne (i : ℚ) (dci : Nat) (ls : List (List Char)) (st : ParseState)
    (h : ∀ l' ∈ ls, (splitKeyVal (pstrip l')).1 ≠ ("Patient ID").data) :
    (ls.foldl (stepLine i dci) st).pdata.patientID = st.pdata.patientID := by
  induction ls generalizing st with
  | nil => rfl
  | cons l t ih =>
    rw [List.foldl_cons, ih _ (fun l' hl' => h l' (List.mem_cons_of_mem _ hl'))]
    exact stepLine_patientID_ne i dci st l (h l (List.mem_cons_self _ _))

/-- C10: a report containing a Patient ID line whose classified value is the
empty string (and no later Patient ID line) yields a record whose identifier
is the empty string; the batch loader keeps it keyed by the empty string, and
the patient pivot writer emits for it the file named ".csv" (empty identifier
plus the extension) whenever the record has at least one structure. -/
theorem C10_empty_patient_id (i : ℚ) (dci : Nat) (dt : String)
    (pre post : List (List Char)) (l : List Char)
    (hne : pstrip l ≠ [])
    (hkv : splitKeyVal (pstrip l) = (("Patient ID").data, []))
    (hpost : ∀ l' ∈ post, (splitKeyVal (pstrip l')).1 ≠ ("Patient ID").data) :
    (parse_dvh_file i dci (pre ++ l :: post)).patientID = some "" ∧
    dictGet "" (parse_folder i dci [pre ++ l :: post]) =
      some (parse_dvh_file i dci (pre ++ l :: post)) ∧
    ((parse_dvh_file i dci (pre ++ l :: post)).structures ≠ [] →
      ((".csv" : String), write_patient_rows dt (parse_dvh_file i dci (pre ++ l :: post))) ∈
        write_patient_csvs dt (parse_folder i dci [pre ++ l :: post])) := by
  have hid : (parse_dvh_file i dci (pre ++ l :: post)).patientID = some "" := by
    unfold parse_dvh_file
    rw [List.foldl_append, List.foldl_cons]
    rw [foldl_patientID_ne i dci post _ hpost]
    rw [stepLine_patientID_set i dci _ l hne (by rw [hkv]), hkv]
  have hfolder : parse_folder i dci [pre ++ l :: post] =
      [("", parse_dvh_file i dci (pre ++ l :: post))] := by
    unfold parse_folder
    rw [List.foldl_cons, List.foldl_nil]
    show (match (parse_dvh_file i dci (pre ++ l :: post)).patientID with
      | some pid => dictInsert pid (parse_dvh_file i dci (pre ++ l :: post)) []
      | none => []) = _
    rw [hid]
    rfl
  refine ⟨hid, ?_, ?_⟩
  · rw [hfolder]
    exact dictGet_insert_self _ _ []
  · intro hstr
    rw [hfolder]
    unfold write_patient_csvs
    rw [List.filterMap_cons]
    simp only [if_neg hstr]
    exact List.mem_cons_self _ _

theorem C10_witness :
    (pstrip (("Patient ID :").data) ≠ [] ∧
      splitKeyVal (pstrip (("Patient ID :").data)) = (("Patient ID").data, []) ∧
      (parse_dvh_file 1 0 ([] ++ ("Patient ID :").data ::
        [("Structure : PTV").data, ("50  10.0  95.2").data])).structures ≠ []) ∧
    (parse_dvh_file 1 0 ([] ++ ("Patient ID :").data ::
        [("Structure : PTV").data, ("50  10.0  95.2").data])).patientID = some "" ∧
    ((".csv" : String), write_patient_rows ("%") (parse_dvh_file 1 0
        ([] ++ ("Patient ID :").data ::
          [("Structure : PTV").data, ("50  10.0  95.2").data]))) ∈
      write_patient_csvs ("%") (parse_folder 1 0
        (([] ++ ("Patient ID :").data ::
          [("Structure : PTV").data, ("50  10.0  95.2").data]) :: [])) := by
  have h := C10_empty_patient_id 1 0 ("%") []
    [("Structure : PTV").data, ("50  10.0  95.2").data] (("Patient ID :").data)
    (by decide) (by decide) (by decide)
  exact ⟨⟨by decide, by decide, by decide⟩, h.1, h.2.2 (by decide)⟩

theorem wsRun_le (cs : List Char) : wsRun cs ≤ cs.length := by
  induction cs with
  | nil => simp [wsRun]
  | cons c t ih =>
    by_cases h : isWs c = true
    · simp only [wsRun, if_pos h, List.length_cons]
      omega
    · simp only [wsRun, if_neg h, List.length_cons]
      omega

theorem alt1Len_le (cs : List Char) (n : Nat) (h : alt1Len cs = some n) : n ≤ cs.length := by
  unfold alt1Len at h
  split at h
  · rename_i rest heq
    obtain rfl := Option.some.inj h
    have h1 := wsRun_le cs
    have h2 : cs.length - wsRun cs = rest.length + 1 := by
      have h3 := List.length_drop (wsRun cs) cs
      rw [heq] at h3
      simp at h3
      omega
    have h4 := wsRun_le rest
    omega
  · exact absurd h (by simp)

theorem alt2Len_le (cs : List Char) (n : Nat) (h : alt2Len cs = some n) : n ≤ cs.length := by
  unfold alt2Len at h
  split at h
  · split at h
    · obtain rfl := Option.some.inj h
      exact wsRun_le _
    · exact absurd h (by simp)
  · exact absurd h (by simp)

theorem sepLen_le (cs : List Char) (n : Nat) (h : sepLen cs = some n) : n ≤ cs.length := by
  unfold sepLen at h
  split at h
  · rename_i m heq
    obtain rfl := Option.some.inj h
    exact alt1Len_le cs _ heq
  · exact alt2Len_le cs n h

theorem sepLen_cases (cs : List Char) (n : Nat) (h : sepLen cs = some n) :
    alt1Len cs = some n ∨ alt2Len cs = some n := by
  unfold sepLen at h
  split at h
  · rename_i m heq
    obtain rfl := Option.some.inj h
    exact Or.inl heq
  · exact Or.inr h

theorem sepLen_nil : sepLen [] = none := rfl

theorem splitFirst_none_sep (cs : List Char) (h : splitFirst cs = none) :
    ∀ j, sepLen (cs.drop j) = none := by
  induction cs with
  | nil =>
    intro j
    rw [List.drop_nil]
    exact sepLen_nil
  | cons c t ih =>
    unfold splitFirst at h
    split at h
    · exact absurd h (by simp)
    · rename_i heq
      have ht : splitFirst t = none := by
        cases hft : splitFirst t with
        | none => rfl
        | some p =>
          obtain ⟨l, r⟩ := p
          rw [hft] at h
          simp at h
      intro j
      cases j with
      | zero => exact heq
      | succ j' => simpa using ih ht j'

theorem splitFirst_some_sep (cs : List Char) (l r : List Char)
    (h : splitFirst cs = some (l, r)) :
    ∃ n, sepLen (cs.drop l.length) = some n ∧ l = cs.take l.length ∧
      r = cs.drop (l.length + n) ∧ (∀ j, j < l.length → sepLen (cs.drop j) = none) := by
  induction cs generalizing l r with
  | nil => simp [splitFirst] at h
  | cons c t ih =>
    unfold splitFirst at h
    split at h
    · rename_i n heq
      have hinj := Option.some.inj h
      have hl : l = [] := (congrArg Prod.fst hinj).symm
      have hr : r = (c :: t).drop n := (congrArg Prod.snd hinj).symm
      subst hl
      refine ⟨n, by simpa using heq, rfl, by simpa using hr, ?_⟩
      intro j hj
      exact absurd hj (by simp)
    · rename_i heq
      cases hft : splitFirst t with
      | none =>
        rw [hft] at h
        simp at h
      | some p =>
        obtain ⟨l', r'⟩ := p
        rw [hft] at h
        simp at h
        obtain ⟨hl, hr⟩ := h
        subst hl
        subst hr
        obtain ⟨n, h1, h2, h3, h4⟩ := ih l' r' hft
        refine ⟨n, by simpa using h1, by simpa using h2, ?_, ?_⟩
        · have hidx : (c :: l').length + n = (l'.length + n) + 1 := by
            simp
            omega
          rw [hidx, h3]
          rfl
        · intro j hj
          cases j with
          | zero => exact heq
          | succ j' =>
            simp only [List.length_cons] at hj
            simpa using h4 j' (by omega)

/-- C4: the classifier splits a non-empty trimmed line at the first position,
scanning left to right, at which either the pattern "optional whitespace,
colon, optional whitespace" or the pattern "two or more consecutive
whitespace characters" matches (the separator consumed is the regex match);
the key is the further-trimmed left part and the value the further-trimmed
right part; if no pattern matches at any position, the key is the entire line
and the value is the empty string. -/
theorem C4_line_classifier (line : List Char) (hne : line ≠ []) (hs : pstrip line = line) :
    (∃ i n, (alt1Len (line.drop i) = some n ∨ alt2Len (line.drop i) = some n) ∧
        i + n ≤ line.length ∧
        (∀ j, j < i → sepLen (line.drop j) = none) ∧
        splitKeyVal line = (pstrip (line.take i), pstrip (line.drop (i + n)))) ∨
    ((∀ j, sepLen (line.drop j) = none) ∧ splitKeyVal line = (pstrip line, [])) := by
  unfold splitKeyVal
  cases hsf : splitFirst line with
  | none => exact Or.inr ⟨splitFirst_none_sep line hsf, rfl⟩
  | some p =>
    obtain ⟨l, r⟩ := p
    obtain ⟨n, h1, h2, h3, h4⟩ := splitFirst_some_sep line l r hsf
    have hle := sepLen_le _ _ h1
    have hnonnil : line.drop l.length ≠ [] := by
      intro he
      rw [he, sepLen_nil] at h1
      exact absurd h1 (by simp)
    have hlt : l.length < line.length := by
      by_contra hcon
      exact hnonnil (List.drop_eq_nil_iff.mpr (by omega))
    refine Or.inl ⟨l.length, n, sepLen_cases _ _ h1, ?_, h4, ?_⟩
    · have hlen := List.length_drop l.length line
      omega
    · rw [← h2, ← h3]

theorem C4_witness :
    ((("Patient Name : hoge").data ≠ [] ∧
        pstrip (("Patient Name : hoge").data) = ("Patient Name : hoge").data)) ∧
    ((∃ i n,
        (alt1Len ((("Patient Name : hoge").data).drop i) = some n ∨
          alt2Len ((("Patient Name : hoge").data).drop i) = some n) ∧
        i + n ≤ (("Patient Name : hoge").data).length ∧
        (∀ j, j < i → sepLen ((("Patient Name : hoge").data).drop j) = none) ∧
        splitKeyVal (("Patient Name : hoge").data) =
          (pstrip ((("Patient Name : hoge").data).take i),
            pstrip ((("Patient Name : hoge").data).drop (i + n)))) ∨
      ((∀ j, sepLen ((("Patient Name : hoge").data).drop j) = none) ∧
        splitKeyVal (("Patient Name : hoge").data) =
          (pstrip (("Patient Name : hoge").data), []))) := by
  refine ⟨⟨by decide, by decide⟩, ?_⟩
  exact C4_line_classifier (("Patient Name : hoge").data) (by decide) (by decide)

theorem structure_names_sorted (pd : PatientData) :
    List.Sorted (fun a b => strLe a b = true) (structure_names pd) :=
  List.sorted_insertionSort _ _

theorem structure_names_perm (pd : PatientData) :
    List.Perm (structure_names pd) (dictKeys pd.structures) :=
  List.perm_insertionSort _ _

theorem sorted_doses_nodup (pd : PatientData) : (sorted_doses pd).Nodup :=
  ((List.perm_insertionSort _ _).nodup_iff).mpr (List.nodup_dedup _)

theorem sorted_doses_sorted (pd : PatientData) : List.Sorted (· < ·) (sorted_doses pd) := by
  have h1 : List.Sorted (fun a b : ℚ => qle a b = true) (sorted_doses pd) :=
    List.sorted_insertionSort _ _
  have h2 : (sorted_doses pd).Nodup := sorted_doses_nodup pd
  exact (h1.and h2).imp (fun h => lt_of_le_of_ne ((qle_iff _ _).mp h.1) h.2)

theorem mem_sorted_doses (pd : PatientData) (d : ℚ) :
    d ∈ sorted_doses pd ↔ ∃ e ∈ pd.structures, ∃ v, (d, v) ∈ e.2.dvh := by
  unfold sorted_doses
  rw [(List.perm_insertionSort _ _).mem_iff, List.mem_dedup, List.mem_flatMap]
  constructor
  · rintro ⟨e, he, hd⟩
    rw [List.mem_map] at hd
    obtain ⟨⟨d', v⟩, hdv, hd⟩ := hd
    refine ⟨e, he, v, ?_⟩
    have : d' = d := hd
    rwa [← this]
  · rintro ⟨e, he, v, hv⟩
    exact ⟨e, he, List.mem_map.mpr ⟨(d, v), hv, rfl⟩⟩

theorem write_patient_csvs_mem (dt : String) (batch : List (String × PatientData))
    (pid : String) (pd : PatientData)
    (hmem : (pid, pd) ∈ batch) (hne : pd.structures ≠ []) :
    (pid ++ ".csv", write_patient_rows dt pd) ∈ write_patient_csvs dt batch := by
  unfold write_patient_csvs
  exact List.mem_filterMap.mpr ⟨(pid, pd), hmem, by simp [hne]⟩

/-- C1: for every patient record in the batch with at least one structure, the
patient pivot writer emits "<id>.csv"; its wide DVH table is the final block
of the emitted rows; the header is the dose column followed by one
"<structure>_Volume [%]" column per structure, names in codepoint
lexicographic ascending order, hence 1 + N columns for N structures; there is
exactly one data row per distinct retained dose value, rows in strictly
ascending numeric dose order; and the cell of structure s at dose d holds
that structure's stored volume exactly when the structure has a sample at
exactly d, and is empty otherwise (no interpolation or snapping). -/
theorem C1_patient_wide_table (dt : String) (batch : List (String × PatientData))
    (pid : String) (pd : PatientData)
    (hmem : (pid, pd) ∈ batch) (hN : pd.structures ≠ []) :
    ((pid ++ ".csv", write_patient_rows dt pd) ∈ write_patient_csvs dt batch) ∧
    (∃ front, write_patient_rows dt pd = front ++
      ((Cell.str ("Dose " ++ doseUnitOf dt) ::
          (structure_names pd).map (fun n => Cell.str (n ++ "_Volume [%]"))) ::
        (sorted_doses pd).map (fun d =>
          Cell.num d :: (structure_names pd).map (fun n => dvhCell pd n d)))) ∧
    (Cell.str ("Dose " ++ doseUnitOf dt) ::
        (structure_names pd).map (fun n => Cell.str (n ++ "_Volume [%]"))).length =
      1 + (dictKeys pd.structures).length ∧
    List.Sorted (fun a b => strLe a b = true) (structure_names pd) ∧
    List.Perm (structure_names pd) (dictKeys pd.structures) ∧
    List.Sorted (· < ·) (sorted_doses pd) ∧
    (∀ d, d ∈ sorted_doses pd ↔ ∃ e ∈ pd.structures, ∃ v, (d, v) ∈ e.2.dvh) ∧
    (∀ s sd d, dictGet s pd.structures = some sd →
      (∀ v, dictGet d sd.dvh = some v → dvhCell pd s d = Cell.num v) ∧
      (dictGet d sd.dvh = none → dvhCell pd s d = Cell.str "")) := by
  refine ⟨write_patient_csvs_mem dt batch pid pd hmem hN, ⟨_, rfl⟩, ?_,
    structure_names_sorted pd, structure_names_perm pd, sorted_doses_sorted pd,
    mem_sorted_doses pd, ?_⟩
  · simp only [List.length_cons, List.length_map]
    rw [(structure_names_perm pd).length_eq]
    omega
  · intro s sd d hsd
    constructor
    · intro v hv
      simp [dvhCell, hsd, hv]
    · intro hv
      simp [dvhCell, hsd, hv]

theorem C1_witness :
    ((("P1" : String), (⟨none, some ("P1"), none,
        [(("PTV"), { emptyStructureRec with dvh := [(50, mkRat 952 10)] }),
          (("BLAD"), { emptyStructureRec with dvh := [(50, 80), (49, 90)] })]⟩ :
        PatientData)) ∈
      [(("P1" : String), (⟨none, some ("P1"), none,
        [(("PTV"), { emptyStructureRec with dvh := [(50, mkRat 952 10)] }),
          (("BLAD"), { emptyStructureRec with dvh := [(50, 80), (49, 90)] })]⟩ :
        PatientData))] ∧
      (⟨none, some ("P1"), none,
        [(("PTV"), { emptyStructureRec with dvh := [(50, mkRat 952 10)] }),
          (("BLAD"), { emptyStructureRec with dvh := [(50, 80), (49, 90)] })]⟩ :
        PatientData).structures ≠ []) ∧
    structure_names (⟨none, some ("P1"), none,
        [(("PTV"), { emptyStructureRec with dvh := [(50, mkRat 952 10)] }),
          (("BLAD"), { emptyStructureRec with dvh := [(50, 80), (49, 90)] })]⟩ :
        PatientData) = [("BLAD"), ("PTV")] ∧
    sorted_doses (⟨none, some ("P1"), none,
        [(("PTV"), { emptyStructureRec with dvh := [(50, mkRat 952 10)] }),
          (("BLAD"), { emptyStructureRec with dvh := [(50, 80), (49, 90)] })]⟩ :
        PatientData) = [49, 50] ∧
    List.Sorted (· < ·) (sorted_doses (⟨none, some ("P1"), none,
        [(("PTV"), { emptyStructureRec with dvh := [(50, mkRat 952 10)] }),
          (("BLAD"), { emptyStructureRec with dvh := [(50, 80), (49, 90)] })]⟩ :
        PatientData)) := by
  refine ⟨⟨by decide, by decide⟩, by decide, by decide, ?_⟩
  exact (C1_patient_wide_table ("%") _ ("P1") _ (List.mem_singleton.mpr rfl)
    (by decide)).2.2.2.2.2.1

theorem dictGet_cons_self {K V : Type} [DecidableEq K] (k : K) (v0 : V) (t : List (K × V)) :
    dictGet k ((k, v0) :: t) = some v0 := by
  rw [show dictGet k ((k, v0) :: t) = if k = k then some v0 else dictGet k t from rfl,
    if_pos rfl]

theorem dictGet_cons_ne {K V : Type} [DecidableEq K] {k0 k : K} (v0 : V) (t : List (K × V))
    (h : k0 ≠ k) : dictGet k ((k0, v0) :: t) = dictGet k t := by
  rw [show dictGet k ((k0, v0) :: t) = if k0 = k then some v0 else dictGet k t from rfl,
    if_neg h]

/-- Lookup in the regrouped triple dictionary: structure name, patient id,
dose. -/
def lookup3 (m : List (String × List (String × List (ℚ × ℚ)))) (s p : String) (d : ℚ) :
    Option ℚ :=
  match dictGet s m with
  | some pm =>
    match dictGet p pm with
    | some dm => dictGet d dm
    | none => none
  | none => none

theorem lookup3_upd3 (sname pid : String) (d v : ℚ)
    (m : List (String × List (String × List (ℚ × ℚ)))) (s p : String) (dq : ℚ) :
    lookup3 (upd3 sname pid d v m) s p dq =
      if s = sname ∧ p = pid ∧ dq = d then some v else lookup3 m s p dq := by
  by_cases hs : s = sname
  · subst hs
    by_cases hp : p = pid
    · subst hp
      simp only [lookup3, upd3, dictGet_upd_self]
      by_cases hd : dq = d
      · subst hd
        rw [dictGet_insert_self, if_pos (by simp)]
      · rw [dictGet_insert_ne _ _ hd, if_neg (by simp [hd])]
        cases hm : dictGet s m with
        | none => simp [dictGet]
        | some pm =>
          simp only [hm, Option.getD_some]
          cases hpm : dictGet p pm with
          | none => simp [hpm, dictGet]
          | some dm => simp [hpm]
    · simp only [lookup3, upd3, dictGet_upd_self]
      rw [dictGet_upd_ne _ _ _ hp, if_neg (by simp [hp])]
      cases hm : dictGet s m with
      | none => simp [hm, dictGet]
      | some pm => simp [hm]
  · simp only [lookup3, upd3]
    rw [dictGet_upd_ne _ _ _ hs, if_neg (by simp [hs])]

theorem lookup3_addStructDvh (sname pid : String) (dvh : List (ℚ × ℚ))
    (acc : List (String × List (String × List (ℚ × ℚ)))) (s p : String) (dq : ℚ)
    (h : (dictKeys dvh).Nodup) :
    lookup3 (addStructDvh sname pid dvh acc) s p dq =
      if s = sname ∧ p = pid then
        match dictGet dq dvh with
        | some v => some v
        | none => lookup3 acc s p dq
      else lookup3 acc s p dq := by
  induction dvh generalizing acc with
  | nil =>
    by_cases hc : s = sname ∧ p = pid
    · rw [if_pos hc]
      rfl
    · rw [if_neg hc]
      rfl
  | cons dv t ih =>
    obtain ⟨d0, v0⟩ := dv
    rw [dictKeys_cons] at h
    have hd0 : d0 ∉ dictKeys t := (List.nodup_cons.mp h).1
    have hts : (dictKeys t).Nodup := (List.nodup_cons.mp h).2
    rw [show addStructDvh sname pid ((d0, v0) :: t) acc =
      addStructDvh sname pid t (upd3 sname pid d0 v0 acc) from rfl]
    rw [ih _ hts]
    by_cases hc : s = sname ∧ p = pid
    · rw [if_pos hc, if_pos hc]
      cases hget : dictGet dq t with
      | some v =>
        have hne : d0 ≠ dq := by
          intro he
          rw [he] at hd0
          exact hd0 ((mem_dictKeys_iff_isSome dq t).mpr (by rw [hget]; rfl))
        rw [dictGet_cons_ne _ _ hne, hget]
      | none =>
        rw [lookup3_upd3]
        by_cases hdq : dq = d0
        · subst hdq
          rw [dictGet_cons_self, if_pos ⟨hc.1, hc.2, rfl⟩]
        · rw [dictGet_cons_ne _ _ (fun he => hdq he.symm), hget,
            if_neg (by simp [hdq])]
    · rw [if_neg hc, if_neg hc, lookup3_upd3, if_neg (by tauto)]

theorem lookup3_addPatientStructs (pid : String) (structs : List (String × StructureRec))
    (acc : List (String × List (String × List (ℚ × ℚ)))) (s p : String) (dq : ℚ)
    (hs : (dictKeys structs).Nodup)
    (hdvh : ∀ e ∈ structs, (dictKeys e.2.dvh).Nodup) :
    lookup3 (addPatientStructs pid structs acc) s p dq =
      if p = pid then
        match dictGet s structs with
        | some sd =>
          match dictGet dq sd.dvh with
          | some v => some v
          | none => lookup3 acc s p dq
        | none => lookup3 acc s p dq
      else lookup3 acc s p dq := by
  induction structs generalizing acc with
  | nil =>
    by_cases hp : p = pid
    · rw [if_pos hp]
      rfl
    · rw [if_neg hp]
      rfl
  | cons se t ih =>
    obtain ⟨s0, sd0⟩ := se
    rw [dictKeys_cons] at hs
    have hs0 : s0 ∉ dictKeys t := (List.nodup_cons.mp hs).1
    have hts : (dictKeys t).Nodup := (List.nodup_cons.mp hs).2
    have hnod0 : (dictKeys sd0.dvh).Nodup := hdvh _ (List.mem_cons_self _ _)
    rw [show addPatientStructs pid ((s0, sd0) :: t) acc =
      addPatientStructs pid t (addStructDvh s0 pid sd0.dvh acc) from rfl]
    rw [ih _ hts (fun e he => hdvh e (List.mem_cons_of_mem _ he))]
    by_cases hp : p = pid
    · rw [if_pos hp, if_pos hp]
      cases hgs : dictGet s t with
      | some sd =>
        have hne : s0 ≠ s := by
          intro he
          rw [he] at hs0
          exact hs0 ((mem_dictKeys_iff_isSome s t).mpr (by rw [hgs]; rfl))
        simp only [dictGet_cons_ne _ _ hne, hgs]
        cases hgd : dictGet dq sd.dvh with
        | some v => simp [hgd]
        | none =>
          simp only [hgd]
          rw [lookup3_addStructDvh _ _ _ _ _ _ _ hnod0,
            if_neg (by exact fun hcc => hne (hcc.1.symm))]
      | none =>
        by_cases hss : s = s0
        · subst hss
          simp only [dictGet_cons_self, hgs]
          rw [lookup3_addStructDvh _ _ _ _ _ _ _ hnod0, if_pos ⟨rfl, hp⟩]
        · simp only [dictGet_cons_ne _ _ (fun he => hss he.symm), hgs]
          rw [lookup3_addStructDvh _ _ _ _ _ _ _ hnod0, if_neg (by tauto)]
    · rw [if_neg hp, if_neg hp, lookup3_addStructDvh _ _ _ _ _ _ _ hnod0,
        if_neg (by tauto)]

theorem lookup3_structure_data_fold (entries : List (String × PatientData))
    (acc : List (String × List (String × List (ℚ × ℚ)))) (s p : String) (dq : ℚ)
    (hb : (dictKeys entries).Nodup)
    (hstr : ∀ e ∈ entries, (dictKeys e.2.structures).Nodup)
    (hdvh : ∀ e ∈ entries, ∀ se ∈ e.2.structures, (dictKeys se.2.dvh).Nodup) :
    lookup3 (entries.foldl (fun acc e => addPatientStructs e.1 e.2.structures acc) acc) s p dq =
      match dictGet p entries with
      | some pd =>
        match dictGet s pd.structures with
        | some sd =>
          match dictGet dq sd.dvh with
          | some v => some v
          | none => lookup3 acc s p dq
        | none => lookup3 acc s p dq
      | none => lookup3 acc s p dq := by
  induction entries generalizing acc with
  | nil => rfl
  | cons e t ih =>
    obtain ⟨p0, pd0⟩ := e
    rw [dictKeys_cons] at hb
    have hp0 : p0 ∉ dictKeys t := (List.nodup_cons.mp hb).1
    have htb : (dictKeys t).Nodup := (List.nodup_cons.mp hb).2
    rw [List.foldl_cons,
      ih _ htb (fun e he => hstr e (List.mem_cons_of_mem _ he))
        (fun e he => hdvh e (List.mem_cons_of_mem _ he))]
    by_cases hp : p = p0
    · subst hp
      have hgt : dictGet p t = none := by
        cases hgt : dictGet p t with
        | none => rfl
        | some pd =>
          exact absurd ((mem_dictKeys_iff_isSome p t).mpr (by rw [hgt]; rfl)) hp0
      simp only [dictGet_cons_self, hgt]
      rw [lookup3_addPatientStructs _ _ _ _ _ _
        (hstr _ (List.mem_cons_self _ _)) (hdvh _ (List.mem_cons_self _ _)), if_pos rfl]
    · have hacc : lookup3 (addPatientStructs p0 pd0.structures acc) s p dq =
          lookup3 acc s p dq := by
        rw [lookup3_addPatientStructs _ _ _ _ _ _
          (hstr _ (List.mem_cons_self _ _)) (hdvh _ (List.mem_cons_self _ _)), if_neg hp]
      simp only [dictGet_cons_ne _ _ (fun he => hp he.symm), hacc]

theorem lookup3_structure_data (batch : List (String × PatientData)) (s p : String) (dq : ℚ)
    (hb : (dictKeys batch).Nodup)
    (hstr : ∀ e ∈ batch, (dictKeys e.2.structures).Nodup)
    (hdvh : ∀ e ∈ batch, ∀ se ∈ e.2.structures, (dictKeys se.2.dvh).Nodup) :
    lookup3 (structure_data batch) s p dq =
      match dictGet p batch with
      | some pd =>
        match dictGet s pd.structures with
        | some sd => dictGet dq sd.dvh
        | none => none
      | none => none := by
  unfold structure_data
  rw [lookup3_structure_data_fold batch [] s p dq hb hstr hdvh]
  cases hp1 : dictGet p batch with
  | none => rfl
  | some pd =>
    simp only [hp1]
    cases hp2 : dictGet s pd.structures with
    | none => simp [lookup3, dictGet]
    | some sd =>
      simp only [hp2]
      cases hp3 : dictGet dq sd.dvh with
      | none => simp [lookup3, dictGet]
      | some v => simp

/-- C2: for one batch over which both pivot writers run, and for a patient p,
structure s and dose d such that p's patient CSV has a row for d (d is among
its sorted doses) and structure_s.csv exists and has a row for d (d is among
the global doses), the patient-CSV cell in the column of s at the row of d
and the structure-CSV cell in the column of p at the row of d are equal:
both empty or both the same volume value. -/
theorem C2_pivot_consistency (batch : List (String × PatientData)) (p : String)
    (pd : PatientData) (s : String) (sd : StructureRec) (d : ℚ)
    (patients : List (String × List (ℚ × ℚ)))
    (hb : (dictKeys batch).Nodup)
    (hstr : ∀ e ∈ batch, (dictKeys e.2.structures).Nodup)
    (hdvh : ∀ e ∈ batch, ∀ se ∈ e.2.structures, (dictKeys se.2.dvh).Nodup)
    (hp : dictGet p batch = some pd)
    (hsd : dictGet s pd.structures = some sd)
    (hrow : d ∈ sorted_doses pd)
    (hfile : dictGet s (structure_data batch) = some patients)
    (hrow2 : d ∈ batch_doses batch) :
    dvhCell pd s d = structCellVal patients p d := by
  have hl := lookup3_structure_data batch s p d hb hstr hdvh
  simp only [hp, hsd] at hl
  simp only [lookup3, hfile] at hl
  cases hpp : dictGet p patients with
  | none =>
    simp only [hpp] at hl
    simp only [dvhCell, structCellVal, hsd, hpp, ← hl]
  | some dm =>
    simp only [hpp] at hl
    simp only [dvhCell, structCellVal, hsd, hpp, ← hl]

theorem C2_witness :
    (dictGet ("P1")
        [(("P1" : String), (⟨none, some ("P1"), none,
            [(("S"), { emptyStructureRec with dvh := [(1, 10)] })]⟩ : PatientData)),
          (("P2" : String), (⟨none, some ("P2"), none,
            [(("S"), { emptyStructureRec with dvh := [(2, 20)] })]⟩ : PatientData))] =
        some (⟨none, some ("P1"), none,
          [(("S"), { emptyStructureRec with dvh := [(1, 10)] })]⟩ : PatientData) ∧
      (1 : ℚ) ∈ sorted_doses (⟨none, some ("P1"), none,
          [(("S"), { emptyStructureRec with dvh := [(1, 10)] })]⟩ : PatientData) ∧
      dictGet ("S") (structure_data
        [(("P1" : String), (⟨none, some ("P1"), none,
            [(("S"), { emptyStructureRec with dvh := [(1, 10)] })]⟩ : PatientData)),
          (("P2" : String), (⟨none, some ("P2"), none,
            [(("S"), { emptyStructureRec with dvh := [(2, 20)] })]⟩ : PatientData))]) =
        some [(("P1"), [(1, 10)]), (("P2"), [(2, 20)])]) ∧
    dvhCell (⟨none, some ("P1"), none,
        [(("S"), { emptyStructureRec with dvh := [(1, 10)] })]⟩ : PatientData) ("S") 1 =
      structCellVal [(("P1"), [(1, 10)]), (("P2"), [(2, 20)])] ("P1") 1 := by
  refine ⟨⟨by decide, by decide, by decide⟩, ?_⟩
  exact C2_pivot_consistency
    [(("P1" : String), (⟨none, some ("P1"), none,
        [(("S"), { emptyStructureRec with dvh := [(1, 10)] })]⟩ : PatientData)),
      (("P2" : String), (⟨none, some ("P2"), none,
        [(("S"), { emptyStructureRec with dvh := [(2, 20)] })]⟩ : PatientData))]
    ("P1") _ ("S") { emptyStructureRec with dvh := [(1, 10)] } 1
    [(("P1"), [(1, 10)]), (("P2"), [(2, 20)])]
    (by decide) (by decide) (by decide) (by decide) (by decide) (by decide) (by decide)
    (by decide)

theorem mem_keys_upd3 (sname pid : String) (d v : ℚ)
    (m : List (String × List (String × List (ℚ × ℚ)))) (s : String) :
    s ∈ dictKeys (upd3 sname pid d v m) ↔ s ∈ dictKeys m ∨ s = sname := by
  unfold upd3
  rw [dictKeys_upd]
  by_cases h : sname ∈ dictKeys m
  · rw [if_pos h]
    constructor
    · exact Or.inl
    · rintro (hs | rfl)
      · exact hs
      · exact h
  · rw [if_neg h]
    simp [List.mem_append]

theorem mem_keys_addStructDvh (sname pid : String) (dvh : List (ℚ × ℚ))
    (acc : List (String × List (String × List (ℚ × ℚ)))) (s : String) :
    s ∈ dictKeys (addStructDvh sname pid dvh acc) ↔
      s ∈ dictKeys acc ∨ (s = sname ∧ dvh ≠ []) := by
  induction dvh generalizing acc with
  | nil => simp [addStructDvh]
  | cons dv t ih =>
    rw [show addStructDvh sname pid (dv :: t) acc =
      addStructDvh sname pid t (upd3 sname pid dv.1 dv.2 acc) from rfl, ih, mem_keys_upd3]
    constructor
    · rintro ((h | h) | ⟨rfl, ht⟩)
      · exact Or.inl h
      · exact Or.inr ⟨h, by simp⟩
      · exact Or.inr ⟨rfl, by simp⟩
    · rintro (h | ⟨rfl, h⟩)
      · exact Or.inl (Or.inl h)
      · exact Or.inl (Or.inr rfl)

theorem mem_keys_addPatientStructs (pid : String) (structs : List (String × StructureRec))
    (acc : List (String × List (String × List (ℚ × ℚ)))) (s : String) :
    s ∈ dictKeys (addPatientStructs pid structs acc) ↔
      s ∈ dictKeys acc ∨ ∃ se ∈ structs, se.1 = s ∧ se.2.dvh ≠ [] := by
  induction structs generalizing acc with
  | nil => simp [addPatientStructs]
  | cons se t ih =>
    rw [show addPatientStructs pid (se :: t) acc =
      addPatientStructs pid t (addStructDvh se.1 pid se.2.dvh acc) from rfl, ih,
      mem_keys_addStructDvh]
    constructor
    · rintro ((h | ⟨rfl, h⟩) | ⟨se', hse', h1, h2⟩)
      · exact Or.inl h
      · exact Or.inr ⟨se, List.mem_cons_self _ _, rfl, h⟩
      · exact Or.inr ⟨se', List.mem_cons_of_mem _ hse', h1, h2⟩
    · rintro (h | ⟨se', hse', h1, h2⟩)
      · exact Or.inl (Or.inl h)
      · rcases List.mem_cons.mp hse' with rfl | hse''
        · exact Or.inl (Or.inr ⟨h1.symm, h2⟩)
        · exact Or.inr ⟨se', hse'', h1, h2⟩

theorem mem_keys_structure_data (batch : List (String × PatientData)) (s : String) :
    s ∈ dictKeys (structure_data batch) ↔
      ∃ e ∈ batch, ∃ se ∈ e.2.structures, se.1 = s ∧ se.2.dvh ≠ [] := by
  have haux : ∀ (entries : List (String × PatientData))
      (acc : List (String × List (String × List (ℚ × ℚ)))),
      (s ∈ dictKeys (entries.foldl
          (fun acc e => addPatientStructs e.1 e.2.structures acc) acc) ↔
        s ∈ dictKeys acc ∨ ∃ e ∈ entries, ∃ se ∈ e.2.structures, se.1 = s ∧ se.2.dvh ≠ []) := by
    intro entries
    induction entries with
    | nil => simp
    | cons e t ih =>
      intro acc
      rw [List.foldl_cons, ih, mem_keys_addPatientStructs]
      constructor
      · rintro ((h | h) | h)
        · exact Or.inl h
        · exact Or.inr ⟨e, List.mem_cons_self _ _, h⟩
        · obtain ⟨e', he', hrest⟩ := h
          exact Or.inr ⟨e', List.mem_cons_of_mem _ he', hrest⟩
      · rintro (h | ⟨e', he', hrest⟩)
        · exact Or.inl (Or.inl h)
        · rcases List.mem_cons.mp he' with rfl | he''
          · exact Or.inl (Or.inr hrest)
          · exact Or.inr ⟨e', he'', hrest⟩
  rw [show structure_data batch =
    batch.foldl (fun acc e => addPatientStructs e.1 e.2.structures acc) [] from rfl]
  simpa [dictKeys] using haux batch []

theorem structure_data_keys_nodup (batch : List (String × PatientData)) :
    (dictKeys (structure_data batch)).Nodup := by
  have hupd : ∀ (sname pid : String) (d v : ℚ) m, (dictKeys m).Nodup →
      (dictKeys (upd3 sname pid d v m)).Nodup := by
    intro sname pid d v m h
    exact nodup_dictKeys_upd _ _ _ _ h
  have hdvh : ∀ (sname pid : String) (dvh : List (ℚ × ℚ)) acc, (dictKeys acc).Nodup →
      (dictKeys (addStructDvh sname pid dvh acc)).Nodup := by
    intro sname pid dvh
    induction dvh with
    | nil => exact fun acc h => h
    | cons dv t ih => exact fun acc h => ih _ (hupd _ _ _ _ _ h)
  have hstructs : ∀ (pid : String) (structs : List (String × StructureRec)) acc,
      (dictKeys acc).Nodup → (dictKeys (addPatientStructs pid structs acc)).Nodup := by
    intro pid structs
    induction structs with
    | nil => exact fun acc h => h
    | cons se t ih => exact fun acc h => ih _ (hdvh _ _ _ _ h)
  have hbatch : ∀ (entries : List (String × PatientData)) acc, (dictKeys acc).Nodup →
      (dictKeys (entries.foldl
        (fun acc e => addPatientStructs e.1 e.2.structures acc) acc)).Nodup := by
    intro entries
    induction entries with
    | nil => exact fun acc h => h
    | cons e t ih => exact fun acc h => ih _ (hstructs _ _ _ h)
  exact hbatch batch [] (by simp [dictKeys])

/-- C5 (amended): within one run the structure pivot writer uses a single
consistent patient-identifier order in the header and the data cells of every
structure CSV it emits; in src/DVH-Extractor.py that order is ascending by
identifier (codepoint order), while in src/dvh2_csv_improved.py it is the
batch insertion order, which need not be ascending. -/
theorem C5_patient_order (dt : String) (batch : List (String × PatientData)) :
    List.Sorted (fun a b => strLe a b = true) (patient_ids batch) ∧
    List.Perm (patient_ids batch) (dictKeys batch) ∧
    patient_ids_improved batch = dictKeys batch ∧
    (∀ e ∈ write_structure_csvs dt batch,
      e.2.head? = some (Cell.str ("Dose " ++ doseUnitOf dt) ::
        (patient_ids batch).map Cell.str) ∧
      ∃ patients, e.2.tail = (batch_doses batch).map (fun d =>
        Cell.num d :: (patient_ids batch).map (fun pid => structCellVal patients pid d))) ∧
    (∀ e ∈ write_structure_csvs_improved dt batch,
      e.2.head? = some (Cell.str ("Dose " ++ doseUnitOf dt) ::
        (patient_ids_improved batch).map Cell.str) ∧
      ∃ patients, e.2.tail = (batch_doses batch).map (fun d =>
        Cell.num d ::
          (patient_ids_improved batch).map (fun pid => structCellVal patients pid d))) := by
  refine ⟨List.sorted_insertionSort _ _, List.perm_insertionSort _ _, rfl, ?_, ?_⟩
  · intro e he
    unfold write_structure_csvs at he
    rw [List.mem_map] at he
    obtain ⟨se, hse, hmap⟩ := he
    rw [← hmap]
    exact ⟨rfl, se.2, rfl⟩
  · intro e he
    unfold write_structure_csvs_improved at he
    rw [List.mem_map] at he
    obtain ⟨se, hse, hmap⟩ := he
    rw [← hmap]
    exact ⟨rfl, se.2, rfl⟩

theorem C5_witness :
    List.Sorted (fun a b => strLe a b = true)
      (patient_ids [(("P2" : String), (⟨none, some ("P2"), none,
          [(("S"), { emptyStructureRec with dvh := [(1, 10)] })]⟩ : PatientData)),
        (("P1" : String), (⟨none, some ("P1"), none,
          [(("S"), { emptyStructureRec with dvh := [(1, 20)] })]⟩ : PatientData))]) ∧
    patient_ids [(("P2" : String), (⟨none, some ("P2"), none,
        [(("S"), { emptyStructureRec with dvh := [(1, 10)] })]⟩ : PatientData)),
      (("P1" : String), (⟨none, some ("P1"), none,
        [(("S"), { emptyStructureRec with dvh := [(1, 20)] })]⟩ : PatientData))] =
      [("P1"), ("P2")] := by
  refine ⟨(C5_patient_order ("%") _).1, by decide⟩

/-- C5 counterexample: in a run of src/dvh2_csv_improved.py whose input folder
enumerates the report of patient P2 before that of P1, the structure pivot
writer's patient columns are P2 then P1 - not ascending by identifier, so the
claim as stated fails on that source file. -/
theorem C5_counterexample :
    patient_ids_improved (parse_folder 1 0
      [[("Patient ID : P2").data, ("Structure : S").data, ("1  10.0").data],
        [("Patient ID : P1").data, ("Structure : S").data, ("1  20.0").data]]) =
      [("P2"), ("P1")] ∧
    strLe ("P2") ("P1") = false ∧
    (write_structure_csvs_improved ("%") (parse_folder 1 0
      [[("Patient ID : P2").data, ("Structure : S").data, ("1  10.0").data],
        [("Patient ID : P1").data, ("Structure : S").data, ("1  20.0").data]])).map
        (fun e => e.2.head?) =
      [some [Cell.str ("Dose [%]"), Cell.str ("P2"), Cell.str ("P1")]] := by
  exact ⟨by decide, by decide, by decide⟩

/-- C6 (amended): a structure name yields an entry of structure_data - and
with it exactly one emitted structure CSV, with the sanitized filename and
the full pivot rows - exactly when at least one patient record of the batch
holds a retained DVH sample for it; a structure whose DVH mapping is empty
in every record yields no file, because the per-structure defaultdict entry
is only created inside the DVH loop. -/
theorem C6_one_file_per_structure (dt : String) (batch : List (String × PatientData))
    (s : String) :
    ((∃ e ∈ batch, ∃ se ∈ e.2.structures, se.1 = s ∧ se.2.dvh ≠ []) ↔
      s ∈ dictKeys (structure_data batch)) ∧
    (s ∈ dictKeys (structure_data batch) →
      ∃ patients, dictGet s (structure_data batch) = some patients ∧
        (structureFile s,
          structRows dt (patient_ids batch) (batch_doses batch) patients) ∈
          write_structure_csvs dt batch) ∧
    (dictKeys (structure_data batch)).count s =
      (if s ∈ dictKeys (structure_data batch) then 1 else 0) := by
  refine ⟨(mem_keys_structure_data batch s).symm, ?_, ?_⟩
  · intro h
    rw [mem_dictKeys_iff_isSome] at h
    obtain ⟨patients, hget⟩ := Option.isSome_iff_exists.mp h
    refine ⟨patients, hget, ?_⟩
    have hm : ((s, patients) : String × List (String × List (ℚ × ℚ))) ∈
        structure_data batch := dictGet_eq_some_mem hget
    exact List.mem_map_of_mem
      (fun se => (structureFile se.1,
        structRows dt (patient_ids batch) (batch_doses batch) se.2)) hm
  · by_cases h : s ∈ dictKeys (structure_data batch)
    · rw [if_pos h]
      exact List.count_eq_one_of_mem (structure_data_keys_nodup batch) h
    · rw [if_neg h]
      exact List.count_eq_zero.mpr h

theorem C6_witness :
    ("S") ∈ dictKeys (structure_data (parse_folder 1 0
      [[("Patient ID : P1").data, ("Structure : S").data, ("1  10.0").data]])) ∧
    ∃ patients,
      dictGet ("S") (structure_data (parse_folder 1 0
        [[("Patient ID : P1").data, ("Structure : S").data, ("1  10.0").data]])) =
        some patients ∧
      (structureFile ("S"),
        structRows ("%")
          (patient_ids (parse_folder 1 0
            [[("Patient ID : P1").data, ("Structure : S").data, ("1  10.0").data]]))
          (batch_doses (parse_folder 1 0
            [[("Patient ID : P1").data, ("Structure : S").data, ("1  10.0").data]]))
          patients) ∈
        write_structure_csvs ("%") (parse_folder 1 0
          [[("Patient ID : P1").data, ("Structure : S").data, ("1  10.0").data]]) := by
  refine ⟨by decide, ?_⟩
  exact (C6_one_file_per_structure ("%") (parse_folder 1 0
    [[("Patient ID : P1").data, ("Structure : S").data, ("1  10.0").data]]) ("S")).2.1
    (by decide)

/-- C6 counterexample: a report whose only DVH row is rejected by the
sampling filter leaves structure S present in the patient record with an
empty DVH mapping, and the structure pivot writer then emits no file at all,
so the claim that every structure of any record gets a CSV fails. -/
theorem C6_counterexample :
    dictGet ("S") (parse_dvh_file (mkRat 1 2) 0
      [("Patient ID : P1").data, ("Structure : S").data, ("50.3  9.0").data]).structures =
      some emptyStructureRec ∧
    write_structure_csvs ("%") (parse_folder (mkRat 1 2) 0
      [[("Patient ID : P1").data, ("Structure : S").data, ("50.3  9.0").data]]) = [] := by
  exact ⟨by decide, by decide⟩

theorem sanitizeChar_eq (c : Char) :
    sanitizeChar c =
      if c = '\\' ∨ c = '/' ∨ c = ':' ∨ c = '*' ∨ c = '?' ∨ c = '"' ∨
          c = '<' ∨ c = '>' ∨ c = '|' then '_' else c := by
  simp only [sanitizeChar, Bool.or_eq_true, decide_eq_true_eq, or_assoc]

/-- C9: every structure CSV of the pivot writer is emitted under the name
obtained by replacing each occurrence of any of the nine characters
backslash, slash, colon, asterisk, question mark, double quote, less-than,
greater-than, vertical bar in the structure name with an underscore and
wrapping the result in structure_...csv. -/
theorem C9_sanitized_filename (dt : String) (batch : List (String × PatientData))
    (s : String) (patients : List (String × List (ℚ × ℚ)))
    (h : dictGet s (structure_data batch) = some patients) :
    (structureFile s,
      structRows dt (patient_ids batch) (batch_doses batch) patients) ∈
      write_structure_csvs dt batch ∧
    structureFile s = "structure_" ++ String.mk (s.data.map (fun c =>
      if c = '\\' ∨ c = '/' ∨ c = ':' ∨ c = '*' ∨ c = '?' ∨ c = '"' ∨
          c = '<' ∨ c = '>' ∨ c = '|' then '_' else c)) ++ ".csv" := by
  constructor
  · have hm : ((s, patients) : String × List (String × List (ℚ × ℚ))) ∈
        structure_data batch := dictGet_eq_some_mem h
    exact List.mem_map_of_mem
      (fun se => (structureFile se.1,
        structRows dt (patient_ids batch) (batch_doses batch) se.2)) hm
  · have hf : sanitizeChar = fun c =>
        if c = '\\' ∨ c = '/' ∨ c = ':' ∨ c = '*' ∨ c = '?' ∨ c = '"' ∨
            c = '<' ∨ c = '>' ∨ c = '|' then '_' else c := funext sanitizeChar_eq
    rw [structureFile, safe_str_name, hf]

theorem C9_witness :
    dictGet ("PTV/1:A") (structure_data (parse_folder 1 0
      [[("Patient ID : P1").data, ("Structure : PTV/1:A").data, ("50  95.2").data]])) =
      some [(("P1"), [(50, mkRat 952 10)])] ∧
    (("structure_PTV_1_A.csv" : String),
      structRows ("%")
        (patient_ids (parse_folder 1 0
          [[("Patient ID : P1").data, ("Structure : PTV/1:A").data, ("50  95.2").data]]))
        (batch_doses (parse_folder 1 0
          [[("Patient ID : P1").data, ("Structure : PTV/1:A").data, ("50  95.2").data]]))
        [(("P1"), [(50, mkRat 952 10)])]) ∈
      write_structure_csvs ("%") (parse_folder 1 0
        [[("Patient ID : P1").data, ("Structure : PTV/1:A").data, ("50  95.2").data]]) := by
  refine ⟨by decide, ?_⟩
  have h := C9_sanitized_filename ("%") (parse_folder 1 0
    [[("Patient ID : P1").data, ("Structure : PTV/1:A").data, ("50  95.2").data]])
    ("PTV/1:A") [(("P1"), [(50, mkRat 952 10)])] (by decide)
  have hname : structureFile ("PTV/1:A") = ("structure_PTV_1_A.csv" : String) := by decide
  rw [← hname]
  exact h.1
